import Mathlib

/-! A verification development for the `stateful` state-machine engine.

Shallow embedding of `stateMachine.go`, `transition.go`, `errors.go`,
`future.go` and `stateful.go`.

Conventions of the embedding.

* Go code with side effects is written in explicit state-passing style over a
  world `W` chosen by the caller: it holds everything caller-supplied code can
  read or write (the objects, the map behind a `DefaultParams`, counters ...).
* Caller-supplied code (actions, `SetState`) returns an `Outcome`: a normal
  return carrying an `error` value (`none` is Go's `nil`), or a panic.
* Every invocation of caller-supplied code is recorded, in order, in the
  `calls` component of the execution state `Exec`.  That component is ghost
  state: no function of the engine reads it.
* A slice of states is the list of its elements wherever the code only reads
  it.  The methods that call `append` on the source states of a transition
  (`getAllStates`, and `Export`, `GetAllStates` and `Graph` through it) are
  given the slice headers and the backing arrays, in a `Memory`, because that
  `append` may write into an array that other slices share.
-/

namespace stateful

/-! ## State, States -/

/-- Modelled from the spec: the `State` type. The file defining `State`,
`States`, `DefaultState` and `AllStates` is not among the sources; section 3 of
the spec describes a state as "an opaque, comparable identifier (logical
equality by value, not identity)". The engine only ever observes a state
through `String()` and `IsWildCard()`; a state is modelled as the
string-backed `DefaultState` used by every test. -/
structure State where
  /-- The Go conversion `DefaultState("...")`. -/
  DefaultState ::
  /-- The underlying string. -/
  name : String
deriving DecidableEq, Repr

/-- Modelled from the spec: `States`, "an ordered collection of State values". -/
abbrev States := List State

/-- Modelled from the spec: `State.String()`, the printed identifier of a state. -/
def State.String (s : State) : String := s.name

/-- Modelled from the spec: `AllStates`, the "reserved wildcard value" meaning
"any state" (used as `States{AllStates}` in `stateMachine_test.go`). -/
def AllStates : State := State.DefaultState "*"

/-- Modelled from the spec: `State.IsWildCard()`, whether the state is the
reserved wildcard value. -/
def State.IsWildCard (s : State) : Bool := decide (s = AllStates)

/-- Modelled from the spec: `States.Contains(state)` "is exact value equality"
(section 4.1). -/
def States.Contains (ss : States) (state : State) : Bool :=
  ss.any (fun s => decide (s = state))

/-- Modelled from the spec: `States.HasWildCard()` "reports whether the reserved
wildcard value is present in the set" (section 4.1). -/
def States.HasWildCard (ss : States) : Bool :=
  ss.any (fun s => s.IsWildCard)

/-! ## Errors (`errors.go`) -/

/-- Go `error` values that occur in the package. -/
inductive Error where
  /-- The value of `errors.New(msg)`; `fmt.Errorf` without `%w` builds the same
  kind of value from the formatted message. -/
  | New (msg : String)
  /-- The value of `NewTransitionNotFoundError(source, destination)`. -/
  | TransitionNotFoundError (source destination : State)
  /-- The value of `pkgErrors.WithStack(err)`. -/
  | WithStack (cause : Error)
deriving DecidableEq, Repr

set_option linter.dupNamespace false in
/-- The method `Error()`: the message of an error. -/
def Error.Error : Error → String
  | .New msg => msg
  | .TransitionNotFoundError source destination =>
      "no transition found source " ++ source.String ++ " destination " ++ destination.String
  | .WithStack cause => cause.Error

/-- The variable `funcNotFound`. -/
def funcNotFound : Error := Error.New "not found transfer function"

/-- The variable `batchFuncNotFound`. -/
def batchFuncNotFound : Error := Error.New "not found batch transfer function"

/-- The function `NewTransitionNotFoundError`. -/
def NewTransitionNotFoundError (source destination : State) : Error :=
  Error.TransitionNotFoundError source destination

/-! ## Outcomes of caller-supplied code -/

/-- The value handed to `panic`: an `error`, or any other value, of which only
the printed form `fmt.Sprint(rval)` is observed. -/
inductive PanicValue where
  | err (e : Error)
  | other (printed : String)
deriving DecidableEq, Repr

/-- How a call of Go code ends: it returns an `error` (`none` is `nil`), or it
panics. -/
inductive Outcome where
  | ret (err : Option Error)
  | panic (rval : PanicValue)
deriving DecidableEq, Repr

/-- The part of a `context.Context` that `Future.Get` observes. `Done` tells
whether the `select` in `Get` takes the `<-ctx.Done()` branch (the context is
cancelled before the unit of work completes); `Err` is the value of
`ctx.Err()` in that case. -/
structure Context where
  Done : Bool
  Err : Error
deriving DecidableEq, Repr

/-- The function `context.Background()`: never cancelled. -/
def Context.Background : Context := ⟨false, Error.New "context canceled"⟩

/-! ## Stateful (`stateful.go`) -/

/-- The interface `Stateful`. `P` is the type of the `Params` value handed
through; `W` is the world. `State()` reads the world, `SetState` may change it. -/
structure Stateful (P W : Type) where
  GetID : String
  State : W → stateful.State
  SetState : Context → stateful.State → P → W → Outcome × W

/-- One invocation of caller-supplied code by the engine. -/
inductive Call (P W : Type) where
  /-- The single-object action `fn` of the transition `id`, on `obj`. -/
  | fn (id : String) (obj : Stateful P W) (params : P)
  /-- The batch action `batchFn` of the transition `id`, on `objs`. -/
  | batchFn (id : String) (objs : List (Stateful P W)) (params : P)
  /-- The method `obj.SetState(ctx, state, params)`. -/
  | SetState (obj : Stateful P W) (state : State) (params : P)

/-- Execution state: the world, and the calls of caller-supplied code made so
far (oldest first). -/
structure Exec (P W : Type) where
  world : W
  calls : List (Call P W)

/-- Run caller-supplied code `f` on the world and record the call `c`. -/
def Exec.invoke {P W : Type} (c : Call P W) (f : W → Outcome × W) (e : Exec P W) :
    Outcome × Exec P W :=
  ((f e.world).1, ⟨(f e.world).2, e.calls ++ [c]⟩)

/-! ## Transition (`transition.go`) -/

/-- The struct `defaultTransition`, the only implementation of `Transition`.
A `nil` function field is `none`. -/
structure defaultTransition (P W : Type) where
  id : String
  sources : States
  destination : State
  fn : Option (Context → Stateful P W → P → W → Outcome × W)
  batchFn : Option (Context → List (Stateful P W) → P → W → Outcome × W)

/-- The interface `Transition`, implemented by `defaultTransition` only. -/
abbrev Transition (P W : Type) := defaultTransition P W

/-- The type `Transitions`. -/
abbrev Transitions (P W : Type) := List (Transition P W)

/-- The function `NewTransition` without options. -/
def NewTransition {P W : Type} (id : String) (sources : States) (destination : State)
    (fn : Option (Context → Stateful P W → P → W → Outcome × W)) : Transition P W :=
  { id := id, sources := sources, destination := destination, fn := fn, batchFn := none }

/-- The function `NewTransition` with the option `BatchTransfer(batchFn)`. -/
def NewTransitionBatch {P W : Type} (id : String) (sources : States) (destination : State)
    (fn : Option (Context → Stateful P W → P → W → Outcome × W))
    (batchFn : Context → List (Stateful P W) → P → W → Outcome × W) : Transition P W :=
  { NewTransition id sources destination fn with batchFn := some batchFn }

variable {P W : Type}

def defaultTransition.GetID (tr : defaultTransition P W) : String := tr.id

def defaultTransition.GetSourceStates (tr : defaultTransition P W) : States := tr.sources

def defaultTransition.GetDestinationState (tr : defaultTransition P W) : State := tr.destination

def defaultTransition.IsAllowedToRun (tr : defaultTransition P W) (state : State) : Bool :=
  States.Contains tr.sources state || States.HasWildCard tr.sources

def defaultTransition.IsAllowedToTransfer (tr : defaultTransition P W) (state : State) : Bool :=
  decide (tr.destination.String = state.String)

/-- The method `Transfer`. Its second branch calls `tr.BatchTransfer` with
`tr.batchFn != nil`, which is the first branch of `BatchTransfer`: that branch
is written out here, and `Transfer_eq` below restates the method as in the
source. -/
def defaultTransition.Transfer (tr : defaultTransition P W) (ctx : Context)
    (statefulObj : Stateful P W) (params : P) (e : Exec P W) : Outcome × Exec P W :=
  match tr.fn with
  | some fn => e.invoke (Call.fn tr.id statefulObj params) (fn ctx statefulObj params)
  | none =>
    match tr.batchFn with
    | some batchFn =>
        e.invoke (Call.batchFn tr.id [statefulObj] params) (batchFn ctx [statefulObj] params)
    | none => (Outcome.ret (some funcNotFound), e)

/-- The loop `for _, statefulObj := range statefulList` of `BatchTransfer`:
`none` when the loop runs to its end, `some out` when the body leaves the
function (an error is returned, or `Transfer` panics). -/
def defaultTransition.BatchTransfer.loop (tr : defaultTransition P W) (ctx : Context)
    (params : P) : List (Stateful P W) → Exec P W → Option Outcome × Exec P W
  | [], e => (none, e)
  | statefulObj :: rest, e =>
    match tr.Transfer ctx statefulObj params e with
    | (Outcome.ret none, e1) => defaultTransition.BatchTransfer.loop tr ctx params rest e1
    | (out, e1) => (some out, e1)

/-- The method `BatchTransfer`. -/
def defaultTransition.BatchTransfer (tr : defaultTransition P W) (ctx : Context)
    (statefulList : List (Stateful P W)) (params : P) (e : Exec P W) : Outcome × Exec P W :=
  match tr.batchFn with
  | some batchFn =>
      e.invoke (Call.batchFn tr.id statefulList params) (batchFn ctx statefulList params)
  | none =>
    match tr.fn with
    | some _ =>
      match defaultTransition.BatchTransfer.loop tr ctx params statefulList e with
      | (some out, e1) => (out, e1)
      | (none, e1) => (Outcome.ret (some batchFuncNotFound), e1)
    | none => (Outcome.ret (some batchFuncNotFound), e)

/-! ## Future (`future.go`) -/

/-- The struct `Future` once its unit of work has completed: the field `err`. -/
structure Future where
  err : Option Error
deriving DecidableEq, Repr

/-- The functions `NewFuture` and `start`: the unit of work `fn` runs, and the
deferred function turns a panic into an error with `pkgErrors.WithStack`. The
unit runs to completion whether or not anybody waits for it, so the execution
state returned is the one it leaves. -/
def NewFuture (fn : Exec P W → Outcome × Exec P W) (e : Exec P W) : Future × Exec P W :=
  match fn e with
  | (Outcome.ret err, e1) => (⟨err⟩, e1)
  | (Outcome.panic (PanicValue.err err), e1) => (⟨some (Error.WithStack err)⟩, e1)
  | (Outcome.panic (PanicValue.other rvalStr), e1) =>
      (⟨some (Error.WithStack (Error.New rvalStr))⟩, e1)

/-- The method `Get`: the `select` between `<-ctx.Done()` and `<-f.ch`. -/
def Future.Get (f : Future) (ctx : Context) : Option Error :=
  if ctx.Done then some ctx.Err else f.err

/-! ## StateMachine (`stateMachine.go`) -/

/-- The struct `stateMachineImpl`. -/
structure stateMachineImpl (P W : Type) where
  transitions : Transitions P W

/-- The function `NewStateMachine` without options. -/
def NewStateMachine (transitions : Transitions P W) : stateMachineImpl P W :=
  { transitions := transitions }

def stateMachineImpl.AddTransition (sm : stateMachineImpl P W) (t : Transition P W) :
    stateMachineImpl P W :=
  { transitions := sm.transitions ++ [t] }

def stateMachineImpl.GetTransitions (sm : stateMachineImpl P W) : Transitions P W :=
  sm.transitions

/-- The loop of `findTransition` over the transitions not yet visited. -/
def stateMachineImpl.findTransition.loop (currentState newState : State) :
    Transitions P W → Option (Transition P W)
  | [] => none
  | transition :: rest =>
    if !transition.IsAllowedToRun currentState then
      stateMachineImpl.findTransition.loop currentState newState rest
    else if transition.IsAllowedToTransfer newState then
      some transition
    else
      stateMachineImpl.findTransition.loop currentState newState rest

/-- The method `findTransition`; `none` is the `nil` transition. -/
def stateMachineImpl.findTransition (sm : stateMachineImpl P W)
    (currentState newState : State) : Option (Transition P W) :=
  stateMachineImpl.findTransition.loop currentState newState sm.transitions

/-- The unit of work that `Run` hands to `NewFuture`. -/
def stateMachineImpl.Run.body (sm : stateMachineImpl P W) (ctx : Context)
    (stateful : Stateful P W) (newState : State) (params : P) (e : Exec P W) :
    Outcome × Exec P W :=
  let currentState := stateful.State e.world
  match sm.findTransition (stateful.State e.world) newState with
  | none => (Outcome.ret (some (NewTransitionNotFoundError currentState newState)), e)
  | some transition =>
    match transition.Transfer ctx stateful params e with
    | (Outcome.ret none, e1) =>
      match e1.invoke (Call.SetState stateful newState params)
          (stateful.SetState ctx newState params) with
      | (Outcome.ret none, e2) => (Outcome.ret none, e2)
      | (out, e2) => (out, e2)
    | (out, e1) => (out, e1)

/-- The method `Run`: the error returned to the caller, and the execution state
the unit of work leaves. -/
def stateMachineImpl.Run (sm : stateMachineImpl P W) (ctx : Context)
    (stateful : Stateful P W) (newState : State) (params : P) (e : Exec P W) :
    Option Error × Exec P W :=
  let f := NewFuture (stateMachineImpl.Run.body sm ctx stateful newState params) e
  (f.1.Get ctx, f.2)

/-- The first loop of `BatchRun`: the error of the first object whose state
differs from `currentState`, `none` when the loop runs to its end. -/
def stateMachineImpl.BatchRun.check (currentState : State) (w : W) :
    List (Stateful P W) → Option Error
  | [] => none
  | statefulObj :: rest =>
    if (statefulObj.State w).String ≠ currentState.String then
      some (Error.New ("the stateful object state is not the same. want "
        ++ currentState.String ++ " got " ++ (statefulObj.State w).String))
    else
      stateMachineImpl.BatchRun.check currentState w rest

/-- The second loop of `BatchRun`, which sets the state of every object. -/
def stateMachineImpl.BatchRun.commit (ctx : Context) (newState : State) (params : P) :
    List (Stateful P W) → Exec P W → Outcome × Exec P W
  | [], e => (Outcome.ret none, e)
  | statefulObj :: rest, e =>
    match e.invoke (Call.SetState statefulObj newState params)
        (statefulObj.SetState ctx newState params) with
    | (Outcome.ret none, e1) => stateMachineImpl.BatchRun.commit ctx newState params rest e1
    | (out, e1) => (out, e1)

/-- The unit of work that `BatchRun` hands to `NewFuture`. -/
def stateMachineImpl.BatchRun.body (sm : stateMachineImpl P W) (ctx : Context)
    (statefulList : List (Stateful P W)) (newState : State) (params : P) (e : Exec P W) :
    Outcome × Exec P W :=
  match statefulList with
  | [] => (Outcome.ret none, e)
  | first :: _ =>
    let currentState := first.State e.world
    match stateMachineImpl.BatchRun.check currentState e.world statefulList with
    | some err => (Outcome.ret (some err), e)
    | none =>
      match sm.findTransition currentState newState with
      | none => (Outcome.ret (some (NewTransitionNotFoundError currentState newState)), e)
      | some transition =>
        match transition.BatchTransfer ctx statefulList params e with
        | (Outcome.ret none, e1) =>
            stateMachineImpl.BatchRun.commit ctx newState params statefulList e1
        | (out, e1) => (out, e1)

/-- The method `BatchRun`. -/
def stateMachineImpl.BatchRun (sm : stateMachineImpl P W) (ctx : Context)
    (statefulList : List (Stateful P W)) (newState : State) (params : P) (e : Exec P W) :
    Option Error × Exec P W :=
  let f := NewFuture (stateMachineImpl.BatchRun.body sm ctx statefulList newState params) e
  (f.1.Get ctx, f.2)

/-! ## Transitions, GetAllStates, GetAvailableTransitions, Graph -/

/-- The inner loop of `getAllStates` over the states of one transition. The
pair holds the keys of the map `keys` and the slice `states`. -/
def Transitions.getAllStates.inner : List State → List State × States → List State × States
  | [], acc => acc
  | state :: rest, (keys, states) =>
    if decide (state ∈ keys) then
      Transitions.getAllStates.inner rest (keys, states)
    else if !state.IsWildCard then
      Transitions.getAllStates.inner rest (state :: keys, states ++ [state])
    else
      Transitions.getAllStates.inner rest (state :: keys, states)

/-- A `States` value as Go stores it, a slice header: the address of the
backing array, the offset of the first element in that array, the length and
the capacity. -/
structure Slice where
  array : Nat
  off : Nat
  len : Nat
  cap : Nat
deriving DecidableEq, Repr

/-- The backing arrays of the `States` slices, by address. -/
structure Memory where
  arrays : List (List State)
deriving DecidableEq, Repr

/-- The elements of the slice `s`. -/
def Memory.read (mem : Memory) (s : Slice) : States :=
  ((mem.arrays.getD s.array []).drop s.off).take s.len

/-- The builtin `append(s, x)`: the elements of the slice it returns, and the
memory afterwards. When the length of `s` is below its capacity, `x` is
written into the backing array of `s` at the index `off + len`, where every
other slice of that array that reaches this index sees it. Otherwise a new
array is allocated for the result, which no other slice points into, and the
arrays in memory stay as they are. -/
def Memory.append (mem : Memory) (s : Slice) (x : State) : States × Memory :=
  if s.len < s.cap then
    (mem.read s ++ [x],
      ⟨mem.arrays.set s.array ((mem.arrays.getD s.array []).set (s.off + s.len) x)⟩)
  else
    (mem.read s ++ [x], mem)

/-- The outer loop of `getAllStates` over the transitions. The field `sources`
of a `defaultTransition` lists the source states a method finds when it is
called; since `append` may write to the backing array of that slice, this
loop is given the memory and, for each transition in turn, the slice header
that `GetSourceStates()` returns, and reads the source states from memory. -/
def Transitions.getAllStates.loop :
    Transitions P W → List Slice → Memory × List State × States →
      Memory × List State × States
  | transition :: rest, sources :: slices, (mem, keys, states) =>
    Transitions.getAllStates.loop rest slices
      ((mem.append sources transition.GetDestinationState).2,
        Transitions.getAllStates.inner
          (mem.append sources transition.GetDestinationState).1 (keys, states))
  | _, _, acc => acc

/-- The method `getAllStates`: the slice returned (the `nil` slice is `[]`) and
the memory afterwards. `slices` holds the slice headers of the source states
of the transitions `ts`, in the same order. -/
def Transitions.getAllStates (mem : Memory) (ts : Transitions P W) (slices : List Slice) :
    States × Memory :=
  ((Transitions.getAllStates.loop ts slices (mem, [], [])).2.2,
    (Transitions.getAllStates.loop ts slices (mem, [], [])).1)

/-- The method `GetAllStates`. -/
def stateMachineImpl.GetAllStates (sm : stateMachineImpl P W) (mem : Memory)
    (slices : List Slice) : States × Memory :=
  if sm.transitions.length = 0 then ([], mem)
  else Transitions.getAllStates mem sm.transitions slices

/-- The loop of `GetAvailableTransitions`; `transitions` is the slice built so
far. `stateful.State()` is read in the world `w`. -/
def stateMachineImpl.GetAvailableTransitions.loop (stateful : Stateful P W) (w : W) :
    Transitions P W → Transitions P W → Transitions P W
  | [], transitions => transitions
  | transition :: rest, transitions =>
    if transition.IsAllowedToRun (stateful.State w) then
      stateMachineImpl.GetAvailableTransitions.loop stateful w rest (transitions ++ [transition])
    else
      stateMachineImpl.GetAvailableTransitions.loop stateful w rest transitions

/-- The method `GetAvailableTransitions`. -/
def stateMachineImpl.GetAvailableTransitions (sm : stateMachineImpl P W)
    (stateful : Stateful P W) (w : W) : Transitions P W :=
  stateMachineImpl.GetAvailableTransitions.loop stateful w sm.transitions []

/-- One call of the function `system`: the command line and the text given to
the command on its standard input. -/
structure SystemCall where
  cmd : String
  dot : String
deriving DecidableEq, Repr

/-- The text `fmt.Sprintf` builds for one edge in `Export`. -/
def Transitions.Export.link (source destination : State) (id : String) : String :=
  source.String ++ " -> " ++ destination.String ++ " [label=\"" ++ id ++ "\"]"

/-- The loop `for _, st := range allStates` of `Export`. -/
def Transitions.Export.wildcard (transition : Transition P W) : States → String → String
  | [], dot => dot
  | st :: rest, dot =>
    Transitions.Export.wildcard transition rest
      (dot ++ "\r\n" ++ Transitions.Export.link st transition.GetDestinationState transition.GetID)

/-- The loop `for _, state := range transition.GetSourceStates()` of `Export`. -/
def Transitions.Export.sources (allStates : States) (transition : Transition P W) :
    States → String → String
  | [], dot => dot
  | state :: rest, dot =>
    if !state.IsWildCard then
      Transitions.Export.sources allStates transition rest
        (dot ++ "\r\n"
          ++ Transitions.Export.link state transition.GetDestinationState transition.GetID)
    else
      Transitions.Export.sources allStates transition rest
        (Transitions.Export.wildcard transition allStates dot)

/-- The loop `for _, transition := range ts` of `Export`. Each turn calls
`ts.getAllStates()`, which may write to memory, and then reads the source
states of `transition` from memory. -/
def Transitions.Export.loop (ts : Transitions P W) (allSlices : List Slice) :
    Transitions P W → List Slice → String × Memory → String × Memory
  | transition :: rest, sources :: slices, (dot, mem) =>
    Transitions.Export.loop ts allSlices rest slices
      (Transitions.Export.sources (Transitions.getAllStates mem ts allSlices).1 transition
        ((Transitions.getAllStates mem ts allSlices).2.read sources) dot,
        (Transitions.getAllStates mem ts allSlices).2)
  | _, _, acc => acc

/-- The method `Export`. The function `system`, which runs an external
program, is a parameter; the result is the error it returns, the list of the
calls made to it, and the memory afterwards. `slices` holds the slice headers
of the source states of the transitions `ts`, in the same order. -/
def Transitions.Export (system : String → String → Option Error) (mem : Memory)
    (ts : Transitions P W) (slices : List Slice) (outfile : String) :
    Option Error × List SystemCall × Memory :=
  let r := Transitions.Export.loop ts slices ts slices
    ("digraph StateMachine \x7b\n\trankdir=LR\n\tnode[width=1 fixedsize=true shape=circle style=filled ]\n\t\n\t",
      mem)
  let dot := r.1 ++ "\r\n\x7d"
  let cmd := "dot -o" ++ outfile ++ " -Tpng -Kdot -s72 -Gsize=10,5 -Gdpi=200"
  (system cmd dot, [⟨cmd, dot⟩], r.2)

/-- The method `Graph`. -/
def stateMachineImpl.Graph (system : String → String → Option Error)
    (sm : stateMachineImpl P W) (mem : Memory) (slices : List Slice) (outfile : String) :
    Option Error × List SystemCall × Memory :=
  if sm.transitions.length = 0 then
    (some (Error.New "can\x27t find any transition"), [], mem)
  else
    Transitions.Export system mem sm.transitions slices outfile

/-! ## DefaultParams (`stateMachine.go`) -/

/-- A value stored in a `DefaultParams` (`interface{}`), as far as the tests
use it. -/
inductive Value where
  | bool (b : Bool)
  | int (n : Int)
  | str (s : String)
deriving DecidableEq, Repr

/-- The type `DefaultParams`, a Go map: `none` is the `nil` map, `some m` a
map holding the bindings `m` (the first binding of a key is the current one). -/
abbrev DefaultParams := Option (List (String × Value))

/-- The method `DefaultParams.Get`: the value (`none` is `nil`) and `ok`. -/
def DefaultParams.Get (p : DefaultParams) (key : String) : Option Value × Bool :=
  match p with
  | none => (none, false)
  | some m => (m.lookup key, (m.lookup key).isSome)

/-- The method `DefaultParams.Set`: the error returned and the map afterwards. -/
def DefaultParams.Set (p : DefaultParams) (key : String) (value : Value) :
    Option Error × DefaultParams :=
  match p with
  | none => (none, none)
  | some m => (none, some ((key, value) :: m))

/-! ## Specification vocabulary -/

/-- A transition matches the pair `(currentState, newState)`: both
`IsAllowedToRun(currentState)` and `IsAllowedToTransfer(newState)` hold. -/
def Matches (t : Transition P W) (currentState newState : State) : Prop :=
  t.IsAllowedToRun currentState = true ∧ t.IsAllowedToTransfer newState = true

instance (t : Transition P W) (currentState newState : State) :
    Decidable (Matches t currentState newState) := by
  unfold Matches; infer_instance

/-- The contract of `SetState` written in `stateful.go` ("SetState change the
state to the given state"): after a call that returns `nil`, `State()` is the
given state. -/
def Stateful.SetStateStores (o : Stateful P W) : Prop :=
  ∀ (ctx : Context) (state : stateful.State) (params : P) (w w1 : W),
    o.SetState ctx state params w = (Outcome.ret none, w1) → o.State w1 = state

/-- The call `o1.SetState(ctx, state, params)` does not take the state `state`
away from `o`: when `o` reports `state` before the call it reports `state`
after it, however the call ends. -/
def Stateful.Keeps (o1 o : Stateful P W) : Prop :=
  ∀ (ctx : Context) (state : stateful.State) (params : P) (w : W),
    o.State w = state → o.State (o1.SetState ctx state params w).2 = state

/-- Apply `step` to the elements of `xs` in list order, threading the world,
as long as every call returns `nil`: the world after the last call, or `none`
as soon as a call returns an error or panics. -/
def runAll {α : Type} (step : α → W → Outcome × W) : List α → W → Option W
  | [], w => some w
  | x :: xs, w =>
    match step x w with
    | (Outcome.ret none, w1) => runAll step xs w1
    | _ => none

/-- The error that the deferred function of `start` stores for the recovered
value `rval`. -/
def PanicValue.recovered : PanicValue → Error
  | .err e => Error.WithStack e
  | .other rvalStr => Error.WithStack (Error.New rvalStr)

/-- The message of the value handed to `panic`, as `start` reads it: the
`Error()` of a value that is an `error`, else `fmt.Sprint(rval)`. -/
def PanicValue.message : PanicValue → String
  | .err e => e.Error
  | .other printed => printed

/-- The slice headers `slices` and the arrays `mem` hold the source states of
the transitions `ts`: there is one header for each transition, in the same
order, and it reads the list `sources` of that transition. -/
def Memory.Holds (mem : Memory) : Transitions P W → List Slice → Prop
  | [], [] => True
  | t :: ts, s :: slices => mem.read s = t.sources ∧ Memory.Holds mem ts slices
  | _, _ => False

/-- The list that keeps the first occurrence of each state of `l`, in the
order of `l`. -/
def firstOccurrences : List State → List State
  | [] => []
  | x :: xs => x :: (firstOccurrences xs).filter (fun y => decide (y ≠ x))

/-- The source states of each transition followed by its destination, for the
transitions in registration order. -/
def mentionedStates : Transitions P W → List State
  | [] => []
  | t :: ts => (t.sources ++ [t.destination]) ++ mentionedStates ts

/-- The states of `GetAllStates` as the specification words them: the first
occurrences among the mentioned states, without the wildcard. -/
def firstSeenStates (ts : Transitions P W) : List State :=
  (firstOccurrences (mentionedStates ts)).filter (fun s => !s.IsWildCard)

/-! ## Test fixtures (`stateMachine_test.go`, `batch_test.go`) -/

def State1 : State := State.DefaultState "State1"

def State2 : State := State.DefaultState "State2"

def State3 : State := State.DefaultState "State3"

def State4 : State := State.DefaultState "State4"

def State5 : State := State.DefaultState "State5"

/-- The struct `TestStatefulObject`. -/
structure TestStatefulObject where
  state : State
  TestValue : Int
deriving DecidableEq, Repr

/-- The memory the tests work on: the `TestStatefulObject` at each address,
a counter shared by the actions, and the map behind the caller's
`DefaultParams` (`none` when the caller passes `nil`). -/
structure TestWorld where
  objects : Nat → TestStatefulObject
  counter : Nat
  params : DefaultParams

/-- The world in which the object at address `a` is replaced by `obj`. -/
def TestWorld.store (w : TestWorld) (a : Nat) (obj : TestStatefulObject) : TestWorld :=
  { w with objects := fun b => if b = a then obj else w.objects b }

/-- The `Stateful` implemented by `*TestStatefulObject`, for the pointer `a`. -/
def TestStatefulObject.ptr (a : Nat) : Stateful Unit TestWorld where
  GetID := "_test_stateful_object"
  State := fun w => (w.objects a).state
  SetState := fun _ state _ w =>
    (Outcome.ret none, w.store a { w.objects a with state := state })

/-- A `Stateful` at address `a` whose `SetState` fails without storing. -/
def TestStatefulObject.readOnly (a : Nat) : Stateful Unit TestWorld where
  GetID := "_read_only_object"
  State := fun w => (w.objects a).state
  SetState := fun _ _ _ w => (Outcome.ret (some (Error.New "read only")), w)

/-- The action `FromState1ToState2` (and the other actions that return `nil`). -/
def FromState1ToState2 : Context → Stateful Unit TestWorld → Unit → TestWorld → Outcome × TestWorld :=
  fun _ _ _ w => (Outcome.ret none, w)

/-- The action `FromState2ToState3` of the test object at address 0: it adds
the amount found under the key `"param"` to the field `TestValue`. -/
def FromState2ToState3 : Context → Stateful Unit TestWorld → Unit → TestWorld → Outcome × TestWorld :=
  fun _ _ _ w =>
    match (w.params.Get "param").1 with
    | some (Value.int amount) =>
        (Outcome.ret none,
          w.store 0 { w.objects 0 with TestValue := (w.objects 0).TestValue + amount })
    | _ => (Outcome.ret none, w)

/-- The action `ErrorBehavior`. -/
def ErrorBehavior : Context → Stateful Unit TestWorld → Unit → TestWorld → Outcome × TestWorld :=
  fun _ _ _ w => (Outcome.ret (some (Error.New "there was an error")), w)

/-- An action that counts its calls and fails on its second call. -/
def failSecond : Context → Stateful Unit TestWorld → Unit → TestWorld → Outcome × TestWorld :=
  fun _ _ _ w =>
    if w.counter = 1 then (Outcome.ret (some (Error.New "second call")), { w with counter := 2 })
    else (Outcome.ret none, { w with counter := w.counter + 1 })

/-- The batch action of transition `a0` in `batch_test.go`:
`params.Set("success", true)`. -/
def setSuccess : Context → List (Stateful Unit TestWorld) → Unit → TestWorld → Outcome × TestWorld :=
  fun _ _ _ w => (Outcome.ret none, { w with params := (w.params.Set "success" (Value.bool true)).2 })

/-- The batch action of transition `a1` in `batch_test.go`. -/
def batchNil : Context → List (Stateful Unit TestWorld) → Unit → TestWorld → Outcome × TestWorld :=
  fun _ _ _ w => (Outcome.ret none, w)

/-- An action that aborts with `panic("boom")`. -/
def panicAction : Context → Stateful Unit TestWorld → Unit → TestWorld → Outcome × TestWorld :=
  fun _ _ _ w => (Outcome.panic (PanicValue.other "boom"), w)

/-- The machine built by `newStateMachine` in `stateMachine_test.go`. -/
def newStateMachine : stateMachineImpl Unit TestWorld :=
  ((((((stateMachineImpl.mk []).AddTransition
    (NewTransition "1" [State1] State2 (some FromState1ToState2))).AddTransition
    (NewTransition "2" [State2] State3 (some FromState2ToState3))).AddTransition
    (NewTransition "3" [State3] State1 (some FromState1ToState2))).AddTransition
    (NewTransition "4" [State2, State3] State4 (some FromState1ToState2))).AddTransition
    (NewTransition "5" [State4] State5 (some FromState1ToState2))).AddTransition
    (NewTransition "6" [AllStates] State1 (some ErrorBehavior))

/-- The machine built in `TestBatchTransfer`. -/
def batchMachine : stateMachineImpl Unit TestWorld :=
  NewStateMachine [
    NewTransitionBatch "a0" [State2] State3 none setSuccess,
    NewTransitionBatch "a1" [State1] State2 none batchNil]

/-- A machine whose only transition `{State1} → State2` has a single-object
action and no batch action. -/
def singleMachine (fn : Context → Stateful Unit TestWorld → Unit → TestWorld → Outcome × TestWorld) :
    stateMachineImpl Unit TestWorld :=
  NewStateMachine [NewTransition "1" [State1] State2 (some fn)]

/-- A machine with a wildcard transition to `State2` registered before a
transition that names `State1`. -/
def wildcardFirst : stateMachineImpl Unit TestWorld :=
  NewStateMachine [
    NewTransition "any" [AllStates] State2 (some FromState1ToState2),
    NewTransition "one" [State1] State2 (some ErrorBehavior)]

/-- The memory after `backing := States{State1, State4}`: one array, at
address 0. -/
def sharedMemory : Memory := ⟨[[State1, State4]]⟩

/-- The slice headers of `backing[:1]` (length 1, capacity 2) and of
`backing[:2]`. -/
def sharedSlices : List Slice := [⟨0, 0, 1, 2⟩, ⟨0, 0, 2, 2⟩]

/-- The machine `NewStateMachine(Transitions{t1, t2})` with
`t1 = NewTransition("1", backing[:1], State2, nil)` and
`t2 = NewTransition("2", backing[:2], State3, nil)`. -/
def sharedMachine : stateMachineImpl Unit TestWorld :=
  NewStateMachine [
    NewTransition "1" [State1] State2 none,
    NewTransition "2" [State1, State4] State3 none]

/-- The world in which every object is in state `state`, with the map `params`. -/
def TestWorld.init (state : State) (params : DefaultParams) : TestWorld :=
  ⟨fun _ => ⟨state, 0⟩, 0, params⟩

/-- The execution state before any call. -/
def Exec.start (w : W) : Exec P W := ⟨w, []⟩

/-! ## Lemmas on `findTransition` -/

theorem findTransition_loop_cons (currentState newState : State) (t : Transition P W)
    (ts : Transitions P W) :
    stateMachineImpl.findTransition.loop currentState newState (t :: ts) =
      if Matches t currentState newState then some t
      else stateMachineImpl.findTransition.loop currentState newState ts := by
  by_cases h1 : t.IsAllowedToRun currentState = true <;>
    by_cases h2 : t.IsAllowedToTransfer newState = true <;>
    simp [stateMachineImpl.findTransition.loop, Matches, h1, h2]

theorem findTransition_loop_none (currentState newState : State) (ts : Transitions P W) :
    stateMachineImpl.findTransition.loop currentState newState ts = none ↔
      ∀ t ∈ ts, ¬ Matches t currentState newState := by
  induction ts with
  | nil => simp [stateMachineImpl.findTransition.loop]
  | cons t ts ih =>
    rw [findTransition_loop_cons]
    by_cases h : Matches t currentState newState
    · simp [h]
    · simp [h, ih]

theorem findTransition_loop_some (currentState newState : State) (ts : Transitions P W)
    (t : Transition P W) :
    stateMachineImpl.findTransition.loop currentState newState ts = some t ↔
      ∃ i : Nat, ts[i]? = some t ∧ Matches t currentState newState ∧
        ∀ j : Nat, j < i → ∀ u : Transition P W, ts[j]? = some u → ¬ Matches u currentState newState := by
  induction ts with
  | nil => simp [stateMachineImpl.findTransition.loop]
  | cons a ts ih =>
    rw [findTransition_loop_cons]
    by_cases h : Matches a currentState newState
    · simp only [h, if_true]
      constructor
      · intro ha
        cases ha
        exact ⟨0, by simp, h, fun j hj => absurd hj (Nat.not_lt_zero j)⟩
      · rintro ⟨i, hi, _, hmin⟩
        cases i with
        | zero => simpa using hi
        | succ i => exact absurd h (hmin 0 (Nat.succ_pos i) a (by simp))
    · simp only [h, if_false, ih]
      constructor
      · rintro ⟨i, hi, hm, hmin⟩
        refine ⟨i + 1, by simpa using hi, hm, ?_⟩
        intro j hj u hu
        cases j with
        | zero =>
          have : a = u := by simpa using hu
          exact this ▸ h
        | succ j => exact hmin j (Nat.lt_of_succ_lt_succ hj) u (by simpa using hu)
      · rintro ⟨i, hi, hm, hmin⟩
        cases i with
        | zero =>
          have : a = t := by simpa using hi
          exact absurd (this ▸ hm) h
        | succ i =>
          refine ⟨i, by simpa using hi, hm, ?_⟩
          intro j hj u hu
          exact hmin (j + 1) (Nat.succ_lt_succ hj) u (by simpa using hu)

theorem findTransition_loop_append (currentState newState : State)
    (pre rest : Transitions P W) (hpre : ∀ u ∈ pre, ¬ Matches u currentState newState) :
    stateMachineImpl.findTransition.loop currentState newState (pre ++ rest) =
      stateMachineImpl.findTransition.loop currentState newState rest := by
  induction pre with
  | nil => rfl
  | cons a pre ih =>
    have ha : ¬ Matches a currentState newState := hpre a (List.mem_cons_self a pre)
    rw [List.cons_append, findTransition_loop_cons, if_neg ha]
    exact ih (fun u hu => hpre u (List.mem_cons_of_mem a hu))

/-! ## C1 -/

/-- C1: `findTransition` returns the transition at the smallest index whose
`IsAllowedToRun(current)` and `IsAllowedToTransfer(target)` both hold, returns
`nil` exactly when no registered transition satisfies both, and a
wildcard-sourced transition to the target that is the first match is chosen
whatever transitions are registered after it. -/
theorem C1_findTransition_first_match (sm : stateMachineImpl P W)
    (currentState newState : State) :
    (sm.findTransition currentState newState = none ↔
        ∀ t ∈ sm.transitions, ¬ Matches t currentState newState) ∧
    (∀ t, sm.findTransition currentState newState = some t ↔
        ∃ i : Nat, sm.transitions[i]? = some t ∧ Matches t currentState newState ∧
          ∀ j : Nat, j < i → ∀ u : Transition P W, sm.transitions[j]? = some u →
            ¬ Matches u currentState newState) ∧
    (∀ (pre rest : Transitions P W) (w : Transition P W),
        sm.transitions = pre ++ w :: rest →
        (∀ u ∈ pre, ¬ Matches u currentState newState) →
        States.HasWildCard w.sources = true → w.destination = newState →
        sm.findTransition currentState newState = some w) := by
  refine ⟨findTransition_loop_none currentState newState sm.transitions,
    fun t => findTransition_loop_some currentState newState sm.transitions t, ?_⟩
  intro pre rest w hts hpre hwild hdest
  have hw : Matches w currentState newState := by
    constructor
    · simp [defaultTransition.IsAllowedToRun, hwild]
    · simp [defaultTransition.IsAllowedToTransfer, hdest]
  unfold stateMachineImpl.findTransition
  rw [hts, findTransition_loop_append currentState newState pre (w :: rest) hpre,
    findTransition_loop_cons, if_pos hw]

/-! ## Lemmas on `Transfer` and `Run` -/

/-- The method `Transfer` as it is written in the source: its second branch
is the call `tr.BatchTransfer(ctx, []Stateful{statefulObj}, params)`. -/
theorem Transfer_eq (tr : defaultTransition P W) (ctx : Context) (statefulObj : Stateful P W)
    (params : P) (e : Exec P W) :
    tr.Transfer ctx statefulObj params e =
      match tr.fn with
      | some fn => e.invoke (Call.fn tr.id statefulObj params) (fn ctx statefulObj params)
      | none =>
        match tr.batchFn with
        | some _ => tr.BatchTransfer ctx [statefulObj] params e
        | none => (Outcome.ret (some funcNotFound), e) := by
  unfold defaultTransition.Transfer defaultTransition.BatchTransfer
  cases tr.fn <;> cases tr.batchFn <;> rfl

theorem Transfer_of_fn (tr : defaultTransition P W) (ctx : Context) (o : Stateful P W)
    (params : P) (e : Exec P W) (fn : Context → Stateful P W → P → W → Outcome × W)
    (hfn : tr.fn = some fn) :
    tr.Transfer ctx o params e =
      ((fn ctx o params e.world).1,
        ⟨(fn ctx o params e.world).2, e.calls ++ [Call.fn tr.id o params]⟩) := by
  simp [defaultTransition.Transfer, hfn, Exec.invoke]

/-- A `Transfer` that returns `nil` ran exactly one action, on the world it was
given: the single-object action when there is one, else the batch action on
the one-element list. -/
theorem Transfer_success_inv (tr : defaultTransition P W) (ctx : Context) (o : Stateful P W)
    (params : P) (e e1 : Exec P W)
    (h : tr.Transfer ctx o params e = (Outcome.ret none, e1)) :
    (∃ fn, tr.fn = some fn ∧ fn ctx o params e.world = (Outcome.ret none, e1.world) ∧
        e1.calls = e.calls ++ [Call.fn tr.id o params]) ∨
    (∃ batchFn, tr.fn = none ∧ tr.batchFn = some batchFn ∧
        batchFn ctx [o] params e.world = (Outcome.ret none, e1.world) ∧
        e1.calls = e.calls ++ [Call.batchFn tr.id [o] params]) := by
  unfold defaultTransition.Transfer at h
  cases hfn : tr.fn with
  | some fn =>
    left
    rw [hfn] at h
    simp only [Exec.invoke, Prod.mk.injEq] at h
    obtain ⟨h1, h2⟩ := h
    subst h2
    exact ⟨fn, rfl, Prod.ext h1 rfl, rfl⟩
  | none =>
    right
    rw [hfn] at h
    cases hb : tr.batchFn with
    | some batchFn =>
      rw [hb] at h
      simp only [Exec.invoke, Prod.mk.injEq] at h
      obtain ⟨h1, h2⟩ := h
      subst h2
      exact ⟨batchFn, rfl, rfl, Prod.ext h1 rfl, rfl⟩
    | none =>
      rw [hb] at h
      simp at h

theorem Run_of_not_found (sm : stateMachineImpl P W) (ctx : Context) (o : Stateful P W)
    (newState : State) (params : P) (e : Exec P W) (hctx : ctx.Done = false)
    (hfind : sm.findTransition (o.State e.world) newState = none) :
    sm.Run ctx o newState params e =
      (some (Error.TransitionNotFoundError (o.State e.world) newState), e) := by
  simp [stateMachineImpl.Run, NewFuture, stateMachineImpl.Run.body, hfind, Future.Get, hctx,
    NewTransitionNotFoundError]

theorem Run_of_transfer_error (sm : stateMachineImpl P W) (ctx : Context) (o : Stateful P W)
    (newState : State) (params : P) (e e1 : Exec P W) (t : Transition P W) (err : Error)
    (hctx : ctx.Done = false)
    (hfind : sm.findTransition (o.State e.world) newState = some t)
    (htransfer : t.Transfer ctx o params e = (Outcome.ret (some err), e1)) :
    sm.Run ctx o newState params e = (some err, e1) := by
  simp [stateMachineImpl.Run, NewFuture, stateMachineImpl.Run.body, hfind, htransfer,
    Future.Get, hctx]

theorem Run_of_success (sm : stateMachineImpl P W) (ctx : Context) (o : Stateful P W)
    (newState : State) (params : P) (e e1 : Exec P W) (w2 : W) (t : Transition P W)
    (hctx : ctx.Done = false)
    (hfind : sm.findTransition (o.State e.world) newState = some t)
    (htransfer : t.Transfer ctx o params e = (Outcome.ret none, e1))
    (hset : o.SetState ctx newState params e1.world = (Outcome.ret none, w2)) :
    sm.Run ctx o newState params e =
      (none, ⟨w2, e1.calls ++ [Call.SetState o newState params]⟩) := by
  simp [stateMachineImpl.Run, NewFuture, stateMachineImpl.Run.body, hfind, htransfer,
    Exec.invoke, hset, Future.Get, hctx]

/-- C1 at the machine `wildcardFirst`: the wildcard transition `any`, registered
first, is found for `(State1, State2)` although the later transition `one`
names `State1`. -/
theorem C1_findTransition_first_match_witness :
    wildcardFirst.findTransition State1 State2 =
      some (NewTransition "any" [AllStates] State2 (some FromState1ToState2)) :=
  (C1_findTransition_first_match wildcardFirst State1 State2).2.2 []
    [NewTransition "one" [State1] State2 (some ErrorBehavior)]
    (NewTransition "any" [AllStates] State2 (some FromState1ToState2))
    rfl (fun _ hu => absurd hu (List.not_mem_nil _)) rfl rfl

/-! ## C2 -/

/-- C2: when a transition matches `(object.State(), target)`, its `Transfer`
returns `nil` and the object's `SetState` returns `nil` (context not
cancelled), `Run` returns `nil`; exactly one action was called, on the world
`Run` started from (so it saw the old state), and `SetState` was called after
it; afterwards `object.State()` is the target for an object whose `SetState`
stores the state; and a second such run from the state reached ends in its own
target. -/
theorem C2_Run_success (sm : stateMachineImpl P W) (ctx : Context) (o : Stateful P W)
    (newState : State) (params : P) (e e1 : Exec P W) (w2 : W) (t : Transition P W)
    (hctx : ctx.Done = false)
    (hfind : sm.findTransition (o.State e.world) newState = some t)
    (htransfer : t.Transfer ctx o params e = (Outcome.ret none, e1))
    (hset : o.SetState ctx newState params e1.world = (Outcome.ret none, w2)) :
    sm.Run ctx o newState params e =
        (none, ⟨w2, e1.calls ++ [Call.SetState o newState params]⟩) ∧
    ((∃ fn, t.fn = some fn ∧ fn ctx o params e.world = (Outcome.ret none, e1.world) ∧
        e1.calls = e.calls ++ [Call.fn t.id o params]) ∨
     (∃ batchFn, t.fn = none ∧ t.batchFn = some batchFn ∧
        batchFn ctx [o] params e.world = (Outcome.ret none, e1.world) ∧
        e1.calls = e.calls ++ [Call.batchFn t.id [o] params])) ∧
    (o.SetStateStores → o.State (sm.Run ctx o newState params e).2.world = newState) ∧
    (∀ (state3 : State) (params3 : P) (t3 : Transition P W) (e3 : Exec P W) (w4 : W),
        o.SetStateStores →
        sm.findTransition newState state3 = some t3 →
        t3.Transfer ctx o params3 (sm.Run ctx o newState params e).2 = (Outcome.ret none, e3) →
        o.SetState ctx state3 params3 e3.world = (Outcome.ret none, w4) →
        (sm.Run ctx o state3 params3 (sm.Run ctx o newState params e).2).1 = none ∧
        o.State (sm.Run ctx o state3 params3 (sm.Run ctx o newState params e).2).2.world
          = state3) := by
  have hrun := Run_of_success sm ctx o newState params e e1 w2 t hctx hfind htransfer hset
  refine ⟨hrun, Transfer_success_inv t ctx o params e e1 htransfer, ?_, ?_⟩
  · intro hlaw
    rw [hrun]
    exact hlaw ctx newState params e1.world w2 hset
  · intro state3 params3 t3 e3 w4 hlaw hfind3 htransfer3 hset3
    have hstate : o.State (sm.Run ctx o newState params e).2.world = newState := by
      rw [hrun]
      exact hlaw ctx newState params e1.world w2 hset
    have hrun3 := Run_of_success sm ctx o state3 params3 (sm.Run ctx o newState params e).2
      e3 w4 t3 hctx (by rw [hstate]; exact hfind3) htransfer3 hset3
    rw [hrun3]
    exact ⟨rfl, hlaw ctx state3 params3 e3.world w4 hset3⟩

theorem ptr_SetStateStores (a : Nat) : (TestStatefulObject.ptr a).SetStateStores := by
  intro ctx state params w w1 h
  simp only [TestStatefulObject.ptr, Prod.mk.injEq, true_and] at h
  subst h
  simp [TestStatefulObject.ptr, TestWorld.store]

theorem ptr_Keeps (a b : Nat) : (TestStatefulObject.ptr a).Keeps (TestStatefulObject.ptr b) := by
  intro ctx state params w h
  simp only [TestStatefulObject.ptr, TestWorld.store] at h ⊢
  by_cases hab : b = a
  · simp [hab]
  · simp [hab, h]

theorem readOnly_Keeps (a : Nat) (o : Stateful Unit TestWorld) :
    (TestStatefulObject.readOnly a).Keeps o := by
  intro ctx state params w h
  simpa [TestStatefulObject.readOnly] using h

/-- C2 on the machine of `TestStateMachine_Run`: the run `State1 → State2` of
the test object returns `nil` and leaves the object in `State2`, and the run
`State2 → State3` that follows returns `nil` and leaves it in `State3`. -/
theorem C2_Run_success_witness :
    (newStateMachine.Run Context.Background (TestStatefulObject.ptr 0) State2 ()
        (Exec.start (TestWorld.init State1 none))).1 = none ∧
    (TestStatefulObject.ptr 0).State
      (newStateMachine.Run Context.Background (TestStatefulObject.ptr 0) State2 ()
        (Exec.start (TestWorld.init State1 none))).2.world = State2 ∧
    (TestStatefulObject.ptr 0).State
      (newStateMachine.Run Context.Background (TestStatefulObject.ptr 0) State3 ()
        (newStateMachine.Run Context.Background (TestStatefulObject.ptr 0) State2 ()
          (Exec.start (TestWorld.init State1 none))).2).2.world = State3 :=
  have h := C2_Run_success newStateMachine Context.Background (TestStatefulObject.ptr 0) State2 ()
    (Exec.start (TestWorld.init State1 none))
    ⟨TestWorld.init State1 none, [Call.fn "1" (TestStatefulObject.ptr 0) ()]⟩
    ((TestWorld.init State1 none).store 0 ⟨State2, 0⟩)
    (NewTransition "1" [State1] State2 (some FromState1ToState2)) rfl rfl rfl rfl
  ⟨congrArg Prod.fst h.1, h.2.2.1 (ptr_SetStateStores 0),
    (h.2.2.2 State3 () (NewTransition "2" [State2] State3 (some FromState2ToState3))
      ⟨(TestWorld.init State1 none).store 0 ⟨State2, 0⟩,
        [Call.fn "1" (TestStatefulObject.ptr 0) (),
          Call.SetState (TestStatefulObject.ptr 0) State2 (),
          Call.fn "2" (TestStatefulObject.ptr 0) ()]⟩
      (((TestWorld.init State1 none).store 0 ⟨State2, 0⟩).store 0 ⟨State3, 0⟩)
      (ptr_SetStateStores 0) rfl rfl rfl).2⟩

/-! ## C3 -/

/-- C3: when no registered transition satisfies `IsAllowedToRun(object.State())`
and `IsAllowedToTransfer(target)`, `Run` returns the `TransitionNotFoundError`
whose source is the object's current state and whose destination is the
target; no action and no `SetState` is called, and the world, hence the
object's state, is unchanged. -/
theorem C3_Run_transition_not_found (sm : stateMachineImpl P W) (ctx : Context)
    (o : Stateful P W) (newState : State) (params : P) (e : Exec P W)
    (hctx : ctx.Done = false)
    (hnone : ∀ t ∈ sm.transitions, ¬ Matches t (o.State e.world) newState) :
    (sm.Run ctx o newState params e).1 =
        some (Error.TransitionNotFoundError (o.State e.world) newState) ∧
    (sm.Run ctx o newState params e).2.calls = e.calls ∧
    (sm.Run ctx o newState params e).2.world = e.world ∧
    o.State (sm.Run ctx o newState params e).2.world = o.State e.world := by
  have hfind : sm.findTransition (o.State e.world) newState = none :=
    (findTransition_loop_none (o.State e.world) newState sm.transitions).mpr hnone
  rw [Run_of_not_found sm ctx o newState params e hctx hfind]
  exact ⟨rfl, rfl, rfl, rfl⟩

/-- C3 on the machine of `TestStateMachine_Run`: from `State2` there is no
transition to `State5`; `Run` returns the error carrying `(State2, State5)` and
the object stays in `State2`. -/
theorem C3_Run_transition_not_found_witness :
    (newStateMachine.Run Context.Background (TestStatefulObject.ptr 0) State5 ()
        (Exec.start (TestWorld.init State2 none))).1 =
      some (Error.TransitionNotFoundError State2 State5) ∧
    (TestStatefulObject.ptr 0).State
      (newStateMachine.Run Context.Background (TestStatefulObject.ptr 0) State5 ()
        (Exec.start (TestWorld.init State2 none))).2.world = State2 :=
  have h := C3_Run_transition_not_found newStateMachine Context.Background
    (TestStatefulObject.ptr 0) State5 () (Exec.start (TestWorld.init State2 none)) rfl
    (by decide)
  ⟨h.1, h.2.2.2⟩

/-! ## C4 -/

/-- C4: when the single-object action of the selected transition returns the
error `err`, `Run` returns exactly `err`; the only call made is that of the
action, so `SetState` is never called, the world is the one the action left,
and the object's state is the old one unless the action itself changed it. -/
theorem C4_Run_action_error (sm : stateMachineImpl P W) (ctx : Context)
    (o : Stateful P W) (newState : State) (params : P) (e : Exec P W) (t : Transition P W)
    (fn : Context → Stateful P W → P → W → Outcome × W) (err : Error) (w1 : W)
    (hctx : ctx.Done = false)
    (hfind : sm.findTransition (o.State e.world) newState = some t)
    (hfn : t.fn = some fn)
    (herr : fn ctx o params e.world = (Outcome.ret (some err), w1)) :
    (sm.Run ctx o newState params e).1 = some err ∧
    (sm.Run ctx o newState params e).2.calls = e.calls ++ [Call.fn t.id o params] ∧
    (sm.Run ctx o newState params e).2.world = w1 ∧
    (o.State w1 = o.State e.world →
      o.State (sm.Run ctx o newState params e).2.world = o.State e.world) := by
  have htransfer : t.Transfer ctx o params e =
      (Outcome.ret (some err), ⟨w1, e.calls ++ [Call.fn t.id o params]⟩) := by
    rw [Transfer_of_fn t ctx o params e fn hfn, herr]
  rw [Run_of_transfer_error sm ctx o newState params e _ t err hctx hfind htransfer]
  exact ⟨rfl, rfl, rfl, fun h => h⟩

/-- C4 on the machine of `TestStateMachine_Run`: from `State5` the run to
`State1` selects the wildcard transition `6`, whose action `ErrorBehavior`
fails; `Run` returns that error and the object stays in `State5`. -/
theorem C4_Run_action_error_witness :
    (newStateMachine.Run Context.Background (TestStatefulObject.ptr 0) State1 ()
        (Exec.start (TestWorld.init State5 none))).1 =
      some (Error.New "there was an error") ∧
    (TestStatefulObject.ptr 0).State
      (newStateMachine.Run Context.Background (TestStatefulObject.ptr 0) State1 ()
        (Exec.start (TestWorld.init State5 none))).2.world = State5 :=
  have h := C4_Run_action_error newStateMachine Context.Background
    (TestStatefulObject.ptr 0) State1 () (Exec.start (TestWorld.init State5 none))
    (NewTransition "6" [AllStates] State1 (some ErrorBehavior)) ErrorBehavior
    (Error.New "there was an error") (TestWorld.init State5 none) rfl rfl rfl rfl
  ⟨h.1, h.2.2.2 rfl⟩

/-! ## Lemmas on `BatchTransfer` and `BatchRun` -/

theorem runAll_append_fail {α : Type} (step : α → W → Outcome × W) (pre post : List α)
    (x : α) (w wk wk1 : W) (out : Outcome)
    (hpre : runAll step pre w = some wk) (hx : step x wk = (out, wk1))
    (hout : out ≠ Outcome.ret none) : runAll step (pre ++ x :: post) w = none := by
  induction pre generalizing w with
  | nil =>
    simp only [runAll, Option.some.injEq] at hpre
    subst hpre
    rw [List.nil_append]
    cases out with
    | ret err =>
      cases err with
      | none => exact absurd rfl hout
      | some err => simp only [runAll, hx]
    | panic rval => simp only [runAll, hx]
  | cons a pre ih =>
    rw [List.cons_append]
    simp only [runAll] at hpre ⊢
    split at hpre
    · next w1 heq => exact ih w1 hpre
    · exact absurd hpre (by simp)

theorem BatchTransfer_loop_all (tr : defaultTransition P W) (ctx : Context) (params : P)
    (fn : Context → Stateful P W → P → W → Outcome × W) (hfn : tr.fn = some fn)
    (objs : List (Stateful P W)) (e : Exec P W) (w1 : W)
    (h : runAll (fun o => fn ctx o params) objs e.world = some w1) :
    defaultTransition.BatchTransfer.loop tr ctx params objs e =
      (none, ⟨w1, e.calls ++ objs.map (fun o => Call.fn tr.id o params)⟩) := by
  induction objs generalizing e with
  | nil =>
    simp only [runAll, Option.some.injEq] at h
    subst h
    simp [defaultTransition.BatchTransfer.loop]
  | cons o objs ih =>
    simp only [runAll] at h
    split at h
    · next w2 heq =>
      simp only [defaultTransition.BatchTransfer.loop, Transfer_of_fn tr ctx o params e fn hfn, heq]
      rw [ih ⟨w2, e.calls ++ [Call.fn tr.id o params]⟩ h]
      simp
    · exact absurd h (by simp)

theorem BatchTransfer_loop_fail (tr : defaultTransition P W) (ctx : Context) (params : P)
    (fn : Context → Stateful P W → P → W → Outcome × W) (hfn : tr.fn = some fn)
    (pre post : List (Stateful P W)) (o : Stateful P W) (e : Exec P W) (wk wk1 : W)
    (out : Outcome)
    (hpre : runAll (fun o => fn ctx o params) pre e.world = some wk)
    (ho : fn ctx o params wk = (out, wk1)) (hout : out ≠ Outcome.ret none) :
    defaultTransition.BatchTransfer.loop tr ctx params (pre ++ o :: post) e =
      (some out, ⟨wk1, e.calls ++ (pre ++ [o]).map (fun o => Call.fn tr.id o params)⟩) := by
  induction pre generalizing e with
  | nil =>
    simp only [runAll, Option.some.injEq] at hpre
    subst hpre
    rw [List.nil_append]
    cases out with
    | ret err =>
      cases err with
      | none => exact absurd rfl hout
      | some err =>
        simp [defaultTransition.BatchTransfer.loop, Transfer_of_fn tr ctx o params e fn hfn, ho]
    | panic rval =>
      simp [defaultTransition.BatchTransfer.loop, Transfer_of_fn tr ctx o params e fn hfn, ho]
  | cons a pre ih =>
    rw [List.cons_append]
    simp only [runAll] at hpre
    split at hpre
    · next w2 heq =>
      simp only [defaultTransition.BatchTransfer.loop, Transfer_of_fn tr ctx a params e fn hfn, heq]
      rw [ih ⟨w2, e.calls ++ [Call.fn tr.id a params]⟩ hpre]
      simp
    · exact absurd hpre (by simp)

theorem commit_all (ctx : Context) (newState : State) (params : P)
    (objs : List (Stateful P W)) (e : Exec P W) (w1 : W)
    (h : runAll (fun o => o.SetState ctx newState params) objs e.world = some w1) :
    stateMachineImpl.BatchRun.commit ctx newState params objs e =
      (Outcome.ret none,
        ⟨w1, e.calls ++ objs.map (fun o => Call.SetState o newState params)⟩) := by
  induction objs generalizing e with
  | nil =>
    simp only [runAll, Option.some.injEq] at h
    subst h
    simp [stateMachineImpl.BatchRun.commit]
  | cons o objs ih =>
    simp only [runAll] at h
    split at h
    · next w2 heq =>
      simp only [stateMachineImpl.BatchRun.commit, Exec.invoke, heq]
      rw [ih ⟨w2, e.calls ++ [Call.SetState o newState params]⟩ h]
      simp
    · exact absurd h (by simp)

theorem commit_fail (ctx : Context) (newState : State) (params : P)
    (pre post : List (Stateful P W)) (o : Stateful P W) (e : Exec P W) (wk wk1 : W)
    (out : Outcome)
    (hpre : runAll (fun o => o.SetState ctx newState params) pre e.world = some wk)
    (ho : o.SetState ctx newState params wk = (out, wk1)) (hout : out ≠ Outcome.ret none) :
    stateMachineImpl.BatchRun.commit ctx newState params (pre ++ o :: post) e =
      (out, ⟨wk1, e.calls ++ (pre ++ [o]).map (fun o => Call.SetState o newState params)⟩) := by
  induction pre generalizing e with
  | nil =>
    simp only [runAll, Option.some.injEq] at hpre
    subst hpre
    rw [List.nil_append]
    cases out with
    | ret err =>
      cases err with
      | none => exact absurd rfl hout
      | some err => simp [stateMachineImpl.BatchRun.commit, Exec.invoke, ho]
    | panic rval => simp [stateMachineImpl.BatchRun.commit, Exec.invoke, ho]
  | cons a pre ih =>
    rw [List.cons_append]
    simp only [runAll] at hpre
    split at hpre
    · next w2 heq =>
      simp only [stateMachineImpl.BatchRun.commit, Exec.invoke, heq]
      rw [ih ⟨w2, e.calls ++ [Call.SetState a newState params]⟩ hpre]
      simp
    · exact absurd hpre (by simp)

theorem check_none_of_same (currentState : State) (w : W) (objs : List (Stateful P W))
    (h : ∀ o ∈ objs, (o.State w).String = currentState.String) :
    stateMachineImpl.BatchRun.check currentState w objs = none := by
  induction objs with
  | nil => rfl
  | cons a objs ih =>
    have ha := h a (List.mem_cons_self a objs)
    simp only [stateMachineImpl.BatchRun.check, ha, ne_eq, not_true_eq_false, if_false]
    exact ih (fun o ho => h o (List.mem_cons_of_mem a ho))

theorem check_first_diff (currentState : State) (w : W) (pre post : List (Stateful P W))
    (d : Stateful P W)
    (hpre : ∀ o ∈ pre, (o.State w).String = currentState.String)
    (hd : (d.State w).String ≠ currentState.String) :
    stateMachineImpl.BatchRun.check currentState w (pre ++ d :: post) =
      some (Error.New ("the stateful object state is not the same. want "
        ++ currentState.String ++ " got " ++ (d.State w).String)) := by
  induction pre with
  | nil => simp [stateMachineImpl.BatchRun.check, hd]
  | cons a pre ih =>
    have ha := hpre a (List.mem_cons_self a pre)
    rw [List.cons_append]
    simp only [stateMachineImpl.BatchRun.check, ha, ne_eq, not_true_eq_false, if_false]
    exact ih (fun o ho => hpre o (List.mem_cons_of_mem a ho))

theorem BatchRun_of_body (sm : stateMachineImpl P W) (ctx : Context)
    (objs : List (Stateful P W)) (newState : State) (params : P) (e e1 : Exec P W)
    (err : Option Error) (hctx : ctx.Done = false)
    (h : stateMachineImpl.BatchRun.body sm ctx objs newState params e = (Outcome.ret err, e1)) :
    sm.BatchRun ctx objs newState params e = (err, e1) := by
  simp [stateMachineImpl.BatchRun, NewFuture, h, Future.Get, hctx]

theorem BatchRun_body_of_found (sm : stateMachineImpl P W) (ctx : Context)
    (objs : List (Stateful P W)) (newState : State) (params : P) (e : Exec P W)
    (s : State) (t : Transition P W) (hne : objs ≠ [])
    (hsame : ∀ o ∈ objs, o.State e.world = s)
    (hfind : sm.findTransition s newState = some t) :
    stateMachineImpl.BatchRun.body sm ctx objs newState params e =
      match t.BatchTransfer ctx objs params e with
      | (Outcome.ret none, e1) => stateMachineImpl.BatchRun.commit ctx newState params objs e1
      | (out, e1) => (out, e1) := by
  cases objs with
  | nil => exact absurd rfl hne
  | cons first rest =>
    have hfirst : first.State e.world = s := hsame first (List.mem_cons_self first rest)
    have hcheck : stateMachineImpl.BatchRun.check s e.world (first :: rest) = none :=
      check_none_of_same s e.world (first :: rest) (fun o ho => by rw [hsame o ho])
    simp only [stateMachineImpl.BatchRun.body, hfirst, hcheck, hfind]

/-- What `BatchTransfer` does for a transition that has a single-object action
and no batch action, when that action returns `nil` on every object: every
object is processed, and the function then returns `batchFuncNotFound`. -/
theorem BatchTransfer_single_action_only (tr : defaultTransition P W) (ctx : Context)
    (params : P) (fn : Context → Stateful P W → P → W → Outcome × W)
    (objs : List (Stateful P W)) (e : Exec P W) (w1 : W)
    (hbatch : tr.batchFn = none) (hfn : tr.fn = some fn)
    (h : runAll (fun o => fn ctx o params) objs e.world = some w1) :
    tr.BatchTransfer ctx objs params e =
      (Outcome.ret (some batchFuncNotFound),
        ⟨w1, e.calls ++ objs.map (fun o => Call.fn tr.id o params)⟩) := by
  simp only [defaultTransition.BatchTransfer, hbatch, hfn,
    BatchTransfer_loop_all tr ctx params fn hfn objs e w1 h]

theorem BatchTransfer_single_action_fail (tr : defaultTransition P W) (ctx : Context)
    (params : P) (fn : Context → Stateful P W → P → W → Outcome × W)
    (pre post : List (Stateful P W)) (o : Stateful P W) (e : Exec P W) (wk wk1 : W)
    (out : Outcome) (hbatch : tr.batchFn = none) (hfn : tr.fn = some fn)
    (hpre : runAll (fun o => fn ctx o params) pre e.world = some wk)
    (ho : fn ctx o params wk = (out, wk1)) (hout : out ≠ Outcome.ret none) :
    tr.BatchTransfer ctx (pre ++ o :: post) params e =
      (out, ⟨wk1, e.calls ++ (pre ++ [o]).map (fun o => Call.fn tr.id o params)⟩) := by
  simp only [defaultTransition.BatchTransfer, hbatch, hfn,
    BatchTransfer_loop_fail tr ctx params fn hfn pre post o e wk wk1 out hpre ho hout]

theorem BatchTransfer_of_batchFn (tr : defaultTransition P W) (ctx : Context)
    (params : P) (batchFn : Context → List (Stateful P W) → P → W → Outcome × W)
    (objs : List (Stateful P W)) (e : Exec P W) (hbatch : tr.batchFn = some batchFn) :
    tr.BatchTransfer ctx objs params e =
      ((batchFn ctx objs params e.world).1,
        ⟨(batchFn ctx objs params e.world).2, e.calls ++ [Call.batchFn tr.id objs params]⟩) := by
  simp [defaultTransition.BatchTransfer, hbatch, Exec.invoke]

/-- What `BatchRun` does on a non-empty list of objects in one state when the
selected transition has a single-object action and no batch action, and that
action returns `nil` on every object: the action is called on every object,
`BatchRun` returns `batchFuncNotFound`, and `SetState` is not called. -/
theorem BatchRun_single_action_only (sm : stateMachineImpl P W) (ctx : Context)
    (objs : List (Stateful P W)) (newState : State) (params : P) (e : Exec P W)
    (s : State) (t : Transition P W) (fn : Context → Stateful P W → P → W → Outcome × W)
    (w1 : W) (hctx : ctx.Done = false) (hne : objs ≠ [])
    (hsame : ∀ o ∈ objs, o.State e.world = s)
    (hfind : sm.findTransition s newState = some t)
    (hbatch : t.batchFn = none) (hfn : t.fn = some fn)
    (h : runAll (fun o => fn ctx o params) objs e.world = some w1) :
    sm.BatchRun ctx objs newState params e =
      (some batchFuncNotFound, ⟨w1, e.calls ++ objs.map (fun o => Call.fn t.id o params)⟩) := by
  apply BatchRun_of_body sm ctx objs newState params e _ _ hctx
  rw [BatchRun_body_of_found sm ctx objs newState params e s t hne hsame hfind,
    BatchTransfer_single_action_only t ctx params fn objs e w1 hbatch hfn h]

/-! ## C5 -/

/-- C5, the code at the failing input: two objects in `State1`, a machine
whose only transition `{State1} → State2` has the single-object action
`FromState1ToState2` (which returns `nil`) and no batch action. `BatchRun`
calls the action on both objects, then returns `batchFuncNotFound` instead of
`nil`, and both objects are still in `State1`. -/
theorem C5_BatchRun_single_action_fallback :
    ((singleMachine FromState1ToState2).BatchRun Context.Background
        [TestStatefulObject.ptr 0, TestStatefulObject.ptr 1] State2 ()
        (Exec.start (TestWorld.init State1 none))).1 = some batchFuncNotFound ∧
    ((singleMachine FromState1ToState2).BatchRun Context.Background
        [TestStatefulObject.ptr 0, TestStatefulObject.ptr 1] State2 ()
        (Exec.start (TestWorld.init State1 none))).2.calls =
      [Call.fn "1" (TestStatefulObject.ptr 0) (), Call.fn "1" (TestStatefulObject.ptr 1) ()] ∧
    (TestStatefulObject.ptr 0).State
      ((singleMachine FromState1ToState2).BatchRun Context.Background
        [TestStatefulObject.ptr 0, TestStatefulObject.ptr 1] State2 ()
        (Exec.start (TestWorld.init State1 none))).2.world = State1 ∧
    (TestStatefulObject.ptr 1).State
      ((singleMachine FromState1ToState2).BatchRun Context.Background
        [TestStatefulObject.ptr 0, TestStatefulObject.ptr 1] State2 ()
        (Exec.start (TestWorld.init State1 none))).2.world = State1 :=
  ⟨rfl, rfl, rfl, rfl⟩

/-! ## C6 -/

/-- C6, the code at the failing input: the transition `{State1} → State2`
defines the single-object action `FromState1ToState2`, which returns `nil`,
and no batch action. `BatchTransfer` on one object calls the action, and on
the empty list calls nothing; both times it returns `batchFuncNotFound`
although one of the two actions is defined. -/
theorem C6_BatchTransfer_not_found_with_action :
    (NewTransition "1" [State1] State2 (some FromState1ToState2)).fn = some FromState1ToState2 ∧
    ((NewTransition "1" [State1] State2 (some FromState1ToState2)).BatchTransfer
        Context.Background [TestStatefulObject.ptr 0] ()
        (Exec.start (TestWorld.init State1 none))).1 = Outcome.ret (some batchFuncNotFound) ∧
    ((NewTransition "1" [State1] State2 (some FromState1ToState2)).BatchTransfer
        Context.Background [TestStatefulObject.ptr 0] ()
        (Exec.start (TestWorld.init State1 none))).2.calls =
      [Call.fn "1" (TestStatefulObject.ptr 0) ()] ∧
    ((NewTransition "1" [State1] State2 (some FromState1ToState2)).BatchTransfer
        Context.Background [] ()
        (Exec.start (TestWorld.init State1 none))).1 = Outcome.ret (some batchFuncNotFound) :=
  ⟨rfl, rfl, rfl, rfl⟩

/-! ## C7 -/

theorem State.String_injective (a b : State) (h : a.String = b.String) : a = b := by
  cases a
  cases b
  simpa [State.String] using h

/-- C7: when some object of a non-empty list reports a state that differs from
the state of the first object, `BatchRun` returns the error whose message
names the first object's state after "want" and the state of the first
differing object, in list order, after "got"; the execution state is
untouched: no action and no `SetState` is called, and no object changes. The
result is the same for every machine. -/
theorem C7_BatchRun_inconsistent_state (sm : stateMachineImpl P W) (ctx : Context)
    (newState : State) (params : P) (e : Exec P W) (first d : Stateful P W)
    (rest pre post : List (Stateful P W))
    (hctx : ctx.Done = false)
    (hlist : first :: rest = pre ++ d :: post)
    (hpre : ∀ o ∈ pre, o.State e.world = first.State e.world)
    (hd : d.State e.world ≠ first.State e.world) :
    (∃ err, (sm.BatchRun ctx (first :: rest) newState params e).1 = some err ∧
      err.Error = "the stateful object state is not the same. want "
        ++ (first.State e.world).String ++ " got " ++ (d.State e.world).String) ∧
    (sm.BatchRun ctx (first :: rest) newState params e).2 = e ∧
    (∀ o : Stateful P W,
      o.State (sm.BatchRun ctx (first :: rest) newState params e).2.world = o.State e.world) := by
  have hcheck := check_first_diff (first.State e.world) e.world pre post d
    (fun o ho => by rw [hpre o ho])
    (fun h => hd (State.String_injective _ _ h))
  have hbody : stateMachineImpl.BatchRun.body sm ctx (first :: rest) newState params e =
      (Outcome.ret (some (Error.New ("the stateful object state is not the same. want "
        ++ (first.State e.world).String ++ " got " ++ (d.State e.world).String))), e) := by
    simp only [stateMachineImpl.BatchRun.body]
    rw [hlist, hcheck]
  rw [BatchRun_of_body sm ctx (first :: rest) newState params e e _ hctx hbody]
  exact ⟨⟨_, rfl, rfl⟩, rfl, fun _ => rfl⟩

/-- C7 on the second call of `TestBatchTransfer`: the first object is in
`State2`, the second in `State1`; the message is the one the test expects and
the second object is still in `State1`. -/
theorem C7_BatchRun_inconsistent_state_witness :
    (∃ err, (batchMachine.BatchRun Context.Background
        [TestStatefulObject.ptr 0, TestStatefulObject.ptr 1] State2 ()
        (Exec.start ((TestWorld.init State1 none).store 0 ⟨State2, 0⟩))).1 = some err ∧
      err.Error = "the stateful object state is not the same. want State2 got State1") ∧
    (TestStatefulObject.ptr 1).State
      (batchMachine.BatchRun Context.Background
        [TestStatefulObject.ptr 0, TestStatefulObject.ptr 1] State2 ()
        (Exec.start ((TestWorld.init State1 none).store 0 ⟨State2, 0⟩))).2.world = State1 :=
  have h := C7_BatchRun_inconsistent_state batchMachine Context.Background State2 ()
    (Exec.start ((TestWorld.init State1 none).store 0 ⟨State2, 0⟩))
    (TestStatefulObject.ptr 0) (TestStatefulObject.ptr 1) [TestStatefulObject.ptr 1]
    [TestStatefulObject.ptr 0] [] rfl rfl
    (fun o ho => by
      have : o = TestStatefulObject.ptr 0 := by simpa using ho
      rw [this])
    (by decide)
  ⟨h.1, h.2.2 (TestStatefulObject.ptr 1)⟩

/-! ## C8 -/

/-- C8: for objects that share one state and a selected transition with only
a single-object action, when the action returns `nil` on the objects before
position `k` and returns the error `err` on the object at position `k`,
`BatchRun` returns `err`; the calls made are those of the action on the
objects `0..k`, in list order, and nothing else: no object after `k` is
processed and `SetState` is never called; the world is the one those actions
left, so every object still reports the original state unless an action
itself changed it. -/
theorem C8_BatchRun_action_fails_midway (sm : stateMachineImpl P W) (ctx : Context)
    (newState : State) (params : P) (e : Exec P W) (s : State) (t : Transition P W)
    (fn : Context → Stateful P W → P → W → Outcome × W)
    (pre post : List (Stateful P W)) (o : Stateful P W) (wk wk1 : W) (err : Error)
    (hctx : ctx.Done = false)
    (hsame : ∀ x ∈ pre ++ o :: post, x.State e.world = s)
    (hfind : sm.findTransition s newState = some t)
    (hbatch : t.batchFn = none) (hfn : t.fn = some fn)
    (hpre : runAll (fun x => fn ctx x params) pre e.world = some wk)
    (ho : fn ctx o params wk = (Outcome.ret (some err), wk1)) :
    (sm.BatchRun ctx (pre ++ o :: post) newState params e).1 = some err ∧
    (sm.BatchRun ctx (pre ++ o :: post) newState params e).2.calls =
      e.calls ++ (pre ++ [o]).map (fun x => Call.fn t.id x params) ∧
    (sm.BatchRun ctx (pre ++ o :: post) newState params e).2.world = wk1 ∧
    ((∀ x ∈ pre ++ o :: post, x.State wk1 = x.State e.world) →
      ∀ x ∈ pre ++ o :: post,
        x.State (sm.BatchRun ctx (pre ++ o :: post) newState params e).2.world = s) := by
  have hbody : stateMachineImpl.BatchRun.body sm ctx (pre ++ o :: post) newState params e =
      (Outcome.ret (some err),
        ⟨wk1, e.calls ++ (pre ++ [o]).map (fun x => Call.fn t.id x params)⟩) := by
    rw [BatchRun_body_of_found sm ctx (pre ++ o :: post) newState params e s t (by simp)
        hsame hfind,
      BatchTransfer_single_action_fail t ctx params fn pre post o e wk wk1 _ hbatch hfn hpre ho
        (by simp)]
  rw [BatchRun_of_body sm ctx (pre ++ o :: post) newState params e _ _ hctx hbody]
  exact ⟨rfl, rfl, rfl, fun hkeep x hx => by rw [hkeep x hx]; exact hsame x hx⟩

/-- C8 on three objects in `State1` and the action `failSecond`, which fails
on its second call: `BatchRun` returns that error after two calls of the
action, and the three objects are still in `State1`. -/
theorem C8_BatchRun_action_fails_midway_witness :
    (((singleMachine failSecond).BatchRun Context.Background
        ([TestStatefulObject.ptr 0] ++ TestStatefulObject.ptr 1 :: [TestStatefulObject.ptr 2])
        State2 () (Exec.start (TestWorld.init State1 none))).1 =
      some (Error.New "second call")) ∧
    (((singleMachine failSecond).BatchRun Context.Background
        ([TestStatefulObject.ptr 0] ++ TestStatefulObject.ptr 1 :: [TestStatefulObject.ptr 2])
        State2 () (Exec.start (TestWorld.init State1 none))).2.calls =
      [Call.fn "1" (TestStatefulObject.ptr 0) (), Call.fn "1" (TestStatefulObject.ptr 1) ()]) ∧
    (∀ x ∈ [TestStatefulObject.ptr 0] ++ TestStatefulObject.ptr 1 :: [TestStatefulObject.ptr 2],
      x.State ((singleMachine failSecond).BatchRun Context.Background
        ([TestStatefulObject.ptr 0] ++ TestStatefulObject.ptr 1 :: [TestStatefulObject.ptr 2])
        State2 () (Exec.start (TestWorld.init State1 none))).2.world = State1) :=
  have h := C8_BatchRun_action_fails_midway (singleMachine failSecond) Context.Background
    State2 () (Exec.start (TestWorld.init State1 none)) State1
    (NewTransition "1" [State1] State2 (some failSecond)) failSecond
    [TestStatefulObject.ptr 0] [TestStatefulObject.ptr 2] (TestStatefulObject.ptr 1)
    ⟨fun _ => ⟨State1, 0⟩, 1, none⟩ ⟨fun _ => ⟨State1, 0⟩, 2, none⟩ (Error.New "second call")
    rfl
    (fun x hx => by
      simp only [List.cons_append, List.nil_append, List.mem_cons, List.mem_singleton,
        List.not_mem_nil, or_false] at hx
      rcases hx with rfl | rfl | rfl <;> rfl)
    rfl rfl rfl rfl rfl
  ⟨h.1, h.2.1, h.2.2.2 (fun x hx => by
      simp only [List.cons_append, List.nil_append, List.mem_cons, List.mem_singleton,
        List.not_mem_nil, or_false] at hx
      rcases hx with rfl | rfl | rfl <;> rfl)⟩

/-! ## Lemmas on the commit loop -/

theorem BatchRun_snd (sm : stateMachineImpl P W) (ctx : Context)
    (objs : List (Stateful P W)) (newState : State) (params : P) (e : Exec P W) :
    (sm.BatchRun ctx objs newState params e).2 =
      (stateMachineImpl.BatchRun.body sm ctx objs newState params e).2 := by
  simp only [stateMachineImpl.BatchRun, NewFuture]
  split <;> simp_all

theorem commit_calls (ctx : Context) (newState : State) (params : P)
    (objs : List (Stateful P W)) (e : Exec P W) :
    ∃ k, k ≤ objs.length ∧
      (stateMachineImpl.BatchRun.commit ctx newState params objs e).2.calls =
        e.calls ++ (objs.take k).map (fun o => Call.SetState o newState params) := by
  induction objs generalizing e with
  | nil => exact ⟨0, Nat.le_refl 0, by simp [stateMachineImpl.BatchRun.commit]⟩
  | cons a objs ih =>
    simp only [stateMachineImpl.BatchRun.commit, Exec.invoke]
    split
    · next e1 heq =>
      obtain ⟨k, hk, hcalls⟩ := ih e1
      refine ⟨k + 1, Nat.succ_le_succ hk, ?_⟩
      rw [hcalls]
      simp only [Prod.mk.injEq] at heq
      rw [← heq.2]
      simp
    · next out e1 _ heq =>
      refine ⟨1, Nat.succ_le_succ (Nat.zero_le _), ?_⟩
      simp only [Prod.mk.injEq] at heq
      rw [← heq.2]
      simp

theorem runAll_invariant {α β : Type} (step : α → W → Outcome × W) (f : W → β)
    (xs : List α) (w w1 : W) (hinv : ∀ x ∈ xs, ∀ w, f (step x w).2 = f w)
    (h : runAll step xs w = some w1) : f w1 = f w := by
  induction xs generalizing w with
  | nil =>
    simp only [runAll, Option.some.injEq] at h
    rw [h]
  | cons a xs ih =>
    simp only [runAll] at h
    split at h
    · next w2 heq =>
      rw [ih w2 (fun x hx => hinv x (List.mem_cons_of_mem a hx)) h]
      have := hinv a (List.mem_cons_self a xs) w
      rw [heq] at this
      exact this
    · exact absurd h (by simp)

theorem runAll_keeps (ctx : Context) (s : State) (params : P) (o : Stateful P W)
    (xs : List (Stateful P W)) (w w1 : W) (hs : o.State w = s)
    (hk : ∀ x ∈ xs, x.Keeps o)
    (h : runAll (fun x => x.SetState ctx s params) xs w = some w1) : o.State w1 = s := by
  induction xs generalizing w with
  | nil =>
    simp only [runAll, Option.some.injEq] at h
    rw [← h]
    exact hs
  | cons a xs ih =>
    simp only [runAll] at h
    split at h
    · next w2 heq =>
      have h2 : o.State w2 = s := by
        have := hk a (List.mem_cons_self a xs) ctx s params w hs
        rw [heq] at this
        exact this
      exact ih w2 h2 (fun x hx => hk x (List.mem_cons_of_mem a hx)) h
    · exact absurd h (by simp)

theorem runAll_SetState_all (ctx : Context) (s : State) (params : P)
    (xs : List (Stateful P W)) (w w1 : W)
    (hst : ∀ x ∈ xs, x.SetStateStores)
    (hk : ∀ x ∈ xs, ∀ y ∈ xs, y.Keeps x)
    (h : runAll (fun x => x.SetState ctx s params) xs w = some w1) :
    ∀ x ∈ xs, x.State w1 = s := by
  induction xs generalizing w with
  | nil => intro x hx; exact absurd hx (List.not_mem_nil x)
  | cons a xs ih =>
    simp only [runAll] at h
    split at h
    · next w2 heq =>
      intro x hx
      rcases List.mem_cons.mp hx with rfl | hx
      · have h2 : x.State w2 = s := hst x (List.mem_cons_self x xs) ctx s params w w2 heq
        exact runAll_keeps ctx s params x xs w2 w1 h2
          (fun y hy => hk x (List.mem_cons_self x xs) y (List.mem_cons_of_mem x hy)) h
      · exact ih w2 (fun y hy => hst y (List.mem_cons_of_mem a hy))
          (fun y hy z hz => hk y (List.mem_cons_of_mem a hy) z (List.mem_cons_of_mem a hz))
          h x hx
    · exact absurd h (by simp)

theorem DefaultParams_Get_Set (p : DefaultParams) (key : String) (value : Value)
    (hp : p ≠ none) : DefaultParams.Get (DefaultParams.Set p key value).2 key = (some value, true) := by
  cases p with
  | none => exact absurd rfl hp
  | some m => simp [DefaultParams.Get, DefaultParams.Set, List.lookup]

/-! ## C9 -/

/-- C9: for a non-empty list of objects that share one state and a selected
transition with a batch action, the calls `BatchRun` makes are the batch
action, once, on the whole list in its order with the caller's params,
followed only by `SetState` calls on a leading part of the list: the
single-object action is never called. When the batch action returns `nil` and
every `SetState` returns `nil`, `BatchRun` returns `nil`, `SetState` was called
on every object in list order, every object whose `SetState` stores the state
reports the target, and a value the action `Set` in a non-nil `DefaultParams`
that the `SetState` calls leave alone is what `Get` returns afterwards. -/
theorem C9_BatchRun_batch_action (sm : stateMachineImpl P W) (ctx : Context)
    (objs : List (Stateful P W)) (newState : State) (params : P) (e : Exec P W)
    (s : State) (t : Transition P W)
    (batchFn : Context → List (Stateful P W) → P → W → Outcome × W)
    (hctx : ctx.Done = false) (hne : objs ≠ [])
    (hsame : ∀ o ∈ objs, o.State e.world = s)
    (hfind : sm.findTransition s newState = some t)
    (hbatch : t.batchFn = some batchFn) :
    (∃ k, k ≤ objs.length ∧
      (sm.BatchRun ctx objs newState params e).2.calls =
        e.calls ++ Call.batchFn t.id objs params ::
          (objs.take k).map (fun o => Call.SetState o newState params)) ∧
    (∀ w1 w2 : W,
      batchFn ctx objs params e.world = (Outcome.ret none, w1) →
      runAll (fun o => o.SetState ctx newState params) objs w1 = some w2 →
      sm.BatchRun ctx objs newState params e =
          (none, ⟨w2, e.calls ++ Call.batchFn t.id objs params ::
            objs.map (fun o => Call.SetState o newState params)⟩) ∧
      ((∀ o ∈ objs, o.SetStateStores) → (∀ o ∈ objs, ∀ o1 ∈ objs, o1.Keeps o) →
        ∀ o ∈ objs, o.State (sm.BatchRun ctx objs newState params e).2.world = newState) ∧
      (∀ (bag : W → DefaultParams) (key : String) (value : Value),
        (∀ o ∈ objs, ∀ w, bag (o.SetState ctx newState params w).2 = bag w) →
        bag e.world ≠ none →
        bag w1 = (DefaultParams.Set (bag e.world) key value).2 →
        DefaultParams.Get (bag (sm.BatchRun ctx objs newState params e).2.world) key =
          (some value, true))) := by
  have hbody := BatchRun_body_of_found sm ctx objs newState params e s t hne hsame hfind
  rw [BatchTransfer_of_batchFn t ctx params batchFn objs e hbatch] at hbody
  constructor
  · rw [BatchRun_snd, hbody]
    split
    · next e1 heq =>
      obtain ⟨k, hk, hcalls⟩ := commit_calls ctx newState params objs e1
      refine ⟨k, hk, ?_⟩
      rw [hcalls]
      simp only [Prod.mk.injEq] at heq
      rw [← heq.2]
      simp
    · next out e1 _ heq =>
      refine ⟨0, Nat.zero_le _, ?_⟩
      simp only [Prod.mk.injEq] at heq
      rw [← heq.2]
      simp
  · intro w1 w2 hact hcommit
    have hrun : sm.BatchRun ctx objs newState params e =
        (none, ⟨w2, e.calls ++ Call.batchFn t.id objs params ::
          objs.map (fun o => Call.SetState o newState params)⟩) := by
      apply BatchRun_of_body sm ctx objs newState params e _ _ hctx
      rw [hbody, hact]
      simp only
      rw [commit_all ctx newState params objs ⟨w1, e.calls ++ [Call.batchFn t.id objs params]⟩
        w2 hcommit]
      simp
    refine ⟨hrun, ?_, ?_⟩
    · intro hst hk
      rw [hrun]
      exact runAll_SetState_all ctx newState params objs w1 w2 hst hk hcommit
    · intro bag key value hframe hbag hset
      rw [hrun]
      have h2 : bag w2 = bag w1 :=
        runAll_invariant (fun o => o.SetState ctx newState params) bag objs w1 w2 hframe hcommit
      show DefaultParams.Get (bag w2) key = (some value, true)
      rw [h2, hset]
      exact DefaultParams_Get_Set (bag e.world) key value hbag

theorem mem_pair {α : Type} (a b x : α) (p : α → Prop) (ha : p a) (hb : p b)
    (hx : x ∈ [a, b]) : p x := by
  simp only [List.mem_cons, List.mem_singleton, List.not_mem_nil, or_false] at hx
  rcases hx with rfl | rfl
  · exact ha
  · exact hb

/-- C9 on the third call of `TestBatchTransfer`: two objects in `State2`, the
target `State3` and a non-nil `DefaultParams`. `BatchRun` returns `nil`, both
objects end in `State3`, and `Get("success")` returns what the batch action
`Set`. -/
theorem C9_BatchRun_batch_action_witness :
    (batchMachine.BatchRun Context.Background
        [TestStatefulObject.ptr 0, TestStatefulObject.ptr 1] State3 ()
        (Exec.start (TestWorld.init State2 (some [])))).1 = none ∧
    (∀ o ∈ [TestStatefulObject.ptr 0, TestStatefulObject.ptr 1],
      o.State (batchMachine.BatchRun Context.Background
        [TestStatefulObject.ptr 0, TestStatefulObject.ptr 1] State3 ()
        (Exec.start (TestWorld.init State2 (some [])))).2.world = State3) ∧
    DefaultParams.Get (batchMachine.BatchRun Context.Background
        [TestStatefulObject.ptr 0, TestStatefulObject.ptr 1] State3 ()
        (Exec.start (TestWorld.init State2 (some [])))).2.world.params "success" =
      (some (Value.bool true), true) :=
  have h := (C9_BatchRun_batch_action batchMachine Context.Background
    [TestStatefulObject.ptr 0, TestStatefulObject.ptr 1] State3 ()
    (Exec.start (TestWorld.init State2 (some []))) State2
    (NewTransitionBatch "a0" [State2] State3 none setSuccess) setSuccess rfl (by simp)
    (fun o ho => mem_pair _ _ o (fun o => o.State _ = State2) rfl rfl ho) rfl rfl).2
    (TestWorld.init State2 (some [("success", Value.bool true)]))
    (((TestWorld.init State2 (some [("success", Value.bool true)])).store 0 ⟨State3, 0⟩).store 1
      ⟨State3, 0⟩) rfl rfl
  ⟨congrArg Prod.fst h.1,
    h.2.1
      (fun o ho => mem_pair _ _ o (fun o => o.SetStateStores)
        (ptr_SetStateStores 0) (ptr_SetStateStores 1) ho)
      (fun o ho o1 ho1 => mem_pair _ _ o (fun o => o1.Keeps o)
        (mem_pair _ _ o1 (fun o1 => o1.Keeps (TestStatefulObject.ptr 0))
          (ptr_Keeps 0 0) (ptr_Keeps 1 0) ho1)
        (mem_pair _ _ o1 (fun o1 => o1.Keeps (TestStatefulObject.ptr 1))
          (ptr_Keeps 0 1) (ptr_Keeps 1 1) ho1) ho),
    h.2.2 (fun w => w.params) "success" (Value.bool true)
      (fun o ho w => mem_pair _ _ o
        (fun o => (o.SetState Context.Background State3 () w).2.params = w.params) rfl rfl ho)
      (by simp [Exec.start, TestWorld.init]) rfl⟩

/-! ## C10 -/

/-- C10: when the action step of `BatchRun` succeeds, `SetState(target)` is
called on the objects in list order. If every call returns `nil`, `BatchRun`
returns `nil` after a call on every object. If the first failing call is on
the object at position `k`, with error `err`, `BatchRun` returns `err`; the
`SetState` calls made are those on the objects `0..k`, so none is made on an
object after `k`; the world is the one the failing call left, with nothing
undone: the objects before `k` whose `SetState` stores the state report the
target. -/
theorem C10_BatchRun_commit_in_order (sm : stateMachineImpl P W) (ctx : Context)
    (objs : List (Stateful P W)) (newState : State) (params : P) (e e1 : Exec P W)
    (s : State) (t : Transition P W)
    (hctx : ctx.Done = false) (hne : objs ≠ [])
    (hsame : ∀ o ∈ objs, o.State e.world = s)
    (hfind : sm.findTransition s newState = some t)
    (haction : t.BatchTransfer ctx objs params e = (Outcome.ret none, e1)) :
    (∀ w2 : W, runAll (fun o => o.SetState ctx newState params) objs e1.world = some w2 →
      sm.BatchRun ctx objs newState params e =
        (none, ⟨w2, e1.calls ++ objs.map (fun o => Call.SetState o newState params)⟩)) ∧
    (∀ (pre post : List (Stateful P W)) (o : Stateful P W) (wk wk1 : W) (err : Error),
      objs = pre ++ o :: post →
      runAll (fun x => x.SetState ctx newState params) pre e1.world = some wk →
      o.SetState ctx newState params wk = (Outcome.ret (some err), wk1) →
      sm.BatchRun ctx objs newState params e =
          (some err,
            ⟨wk1, e1.calls ++ (pre ++ [o]).map (fun x => Call.SetState x newState params)⟩) ∧
      ((∀ x ∈ pre, x.SetStateStores) → (∀ x ∈ pre, ∀ y ∈ pre ++ [o], y.Keeps x) →
        ∀ x ∈ pre, x.State (sm.BatchRun ctx objs newState params e).2.world = newState)) := by
  have hbody := BatchRun_body_of_found sm ctx objs newState params e s t hne hsame hfind
  rw [haction] at hbody
  simp only at hbody
  constructor
  · intro w2 hcommit
    apply BatchRun_of_body sm ctx objs newState params e _ _ hctx
    rw [hbody, commit_all ctx newState params objs e1 w2 hcommit]
  · intro pre post o wk wk1 err hobjs hpre ho
    have hrun : sm.BatchRun ctx objs newState params e =
        (some err,
          ⟨wk1, e1.calls ++ (pre ++ [o]).map (fun x => Call.SetState x newState params)⟩) := by
      apply BatchRun_of_body sm ctx objs newState params e _ _ hctx
      rw [hbody, hobjs,
        commit_fail ctx newState params pre post o e1 wk wk1 _ hpre ho (by simp)]
    refine ⟨hrun, ?_⟩
    intro hst hk x hx
    rw [hrun]
    have hwk : x.State wk = newState :=
      runAll_SetState_all ctx newState params pre e1.world wk hst
        (fun y hy z hz => hk y hy z (List.mem_append_left [o] hz)) hpre x hx
    have := hk x hx o (List.mem_append_right pre (List.mem_singleton_self o)) ctx newState
      params wk hwk
    rw [ho] at this
    exact this

/-- C10 on the machine of `TestBatchTransfer` and three objects in `State1`,
the second of which refuses `SetState`: `BatchRun` returns that error after
the batch action and two `SetState` calls; the first object is in `State2`,
the third is still in `State1`. -/
theorem C10_BatchRun_commit_in_order_witness :
    (batchMachine.BatchRun Context.Background
        [TestStatefulObject.ptr 0, TestStatefulObject.readOnly 1, TestStatefulObject.ptr 2]
        State2 () (Exec.start (TestWorld.init State1 none))).1 =
      some (Error.New "read only") ∧
    (batchMachine.BatchRun Context.Background
        [TestStatefulObject.ptr 0, TestStatefulObject.readOnly 1, TestStatefulObject.ptr 2]
        State2 () (Exec.start (TestWorld.init State1 none))).2.calls =
      [Call.batchFn "a1"
          [TestStatefulObject.ptr 0, TestStatefulObject.readOnly 1, TestStatefulObject.ptr 2] (),
        Call.SetState (TestStatefulObject.ptr 0) State2 (),
        Call.SetState (TestStatefulObject.readOnly 1) State2 ()] ∧
    (TestStatefulObject.ptr 0).State
      (batchMachine.BatchRun Context.Background
        [TestStatefulObject.ptr 0, TestStatefulObject.readOnly 1, TestStatefulObject.ptr 2]
        State2 () (Exec.start (TestWorld.init State1 none))).2.world = State2 ∧
    (TestStatefulObject.ptr 2).State
      (batchMachine.BatchRun Context.Background
        [TestStatefulObject.ptr 0, TestStatefulObject.readOnly 1, TestStatefulObject.ptr 2]
        State2 () (Exec.start (TestWorld.init State1 none))).2.world = State1 :=
  have h := (C10_BatchRun_commit_in_order batchMachine Context.Background
    [TestStatefulObject.ptr 0, TestStatefulObject.readOnly 1, TestStatefulObject.ptr 2]
    State2 () (Exec.start (TestWorld.init State1 none))
    ⟨TestWorld.init State1 none,
      [Call.batchFn "a1"
        [TestStatefulObject.ptr 0, TestStatefulObject.readOnly 1, TestStatefulObject.ptr 2] ()]⟩
    State1 (NewTransitionBatch "a1" [State1] State2 none batchNil) rfl (by simp)
    (fun o ho => by
      simp only [List.mem_cons, List.mem_singleton, List.not_mem_nil, or_false] at ho
      rcases ho with rfl | rfl | rfl <;> rfl)
    rfl rfl).2
    [TestStatefulObject.ptr 0] [TestStatefulObject.ptr 2] (TestStatefulObject.readOnly 1)
    ((TestWorld.init State1 none).store 0 ⟨State2, 0⟩)
    ((TestWorld.init State1 none).store 0 ⟨State2, 0⟩) (Error.New "read only") rfl rfl rfl
  ⟨congrArg Prod.fst h.1, congrArg (fun r => r.2.calls) h.1,
    h.2
      (fun x hx => by
        have : x = TestStatefulObject.ptr 0 := by simpa using hx
        rw [this]
        exact ptr_SetStateStores 0)
      (fun x hx y hy => by
        have hx0 : x = TestStatefulObject.ptr 0 := by simpa using hx
        simp only [List.cons_append, List.nil_append, List.mem_cons, List.mem_singleton,
          List.not_mem_nil, or_false] at hy
        rw [hx0]
        rcases hy with rfl | rfl
        · exact ptr_Keeps 0 0
        · exact readOnly_Keeps 1 _)
      (TestStatefulObject.ptr 0) (List.mem_singleton_self _),
    by rw [h.1]; rfl⟩

/-! ## C11 -/

/-- Every way `Transfer` can end: the single-object action ran, or there is
none and the batch action ran on the one-element list, or neither is defined
and `funcNotFound` is returned with nothing called. -/
theorem Transfer_inv (tr : defaultTransition P W) (ctx : Context) (o : Stateful P W)
    (params : P) (e e1 : Exec P W) (out : Outcome)
    (h : tr.Transfer ctx o params e = (out, e1)) :
    (∃ fn, tr.fn = some fn ∧ fn ctx o params e.world = (out, e1.world) ∧
        e1.calls = e.calls ++ [Call.fn tr.id o params]) ∨
    (∃ batchFn, tr.fn = none ∧ tr.batchFn = some batchFn ∧
        batchFn ctx [o] params e.world = (out, e1.world) ∧
        e1.calls = e.calls ++ [Call.batchFn tr.id [o] params]) ∨
    (tr.fn = none ∧ tr.batchFn = none ∧ out = Outcome.ret (some funcNotFound) ∧ e1 = e) := by
  unfold defaultTransition.Transfer at h
  cases hfn : tr.fn with
  | some fn =>
    left
    rw [hfn] at h
    simp only [Exec.invoke, Prod.mk.injEq] at h
    obtain ⟨h1, h2⟩ := h
    subst h2
    exact ⟨fn, rfl, Prod.ext h1 rfl, rfl⟩
  | none =>
    right
    rw [hfn] at h
    cases hb : tr.batchFn with
    | some batchFn =>
      left
      rw [hb] at h
      simp only [Exec.invoke, Prod.mk.injEq] at h
      obtain ⟨h1, h2⟩ := h
      subst h2
      exact ⟨batchFn, rfl, rfl, Prod.ext h1 rfl, rfl⟩
    | none =>
      right
      rw [hb] at h
      simp only [Prod.mk.injEq] at h
      exact ⟨rfl, rfl, h.1.symm, h.2.symm⟩

theorem Run_of_transfer_panic (sm : stateMachineImpl P W) (ctx : Context) (o : Stateful P W)
    (newState : State) (params : P) (e e1 : Exec P W) (t : Transition P W) (rval : PanicValue)
    (hctx : ctx.Done = false)
    (hfind : sm.findTransition (o.State e.world) newState = some t)
    (htransfer : t.Transfer ctx o params e = (Outcome.panic rval, e1)) :
    sm.Run ctx o newState params e =
      (some rval.recovered, e1) := by
  cases rval <;>
    simp [stateMachineImpl.Run, NewFuture, stateMachineImpl.Run.body, hfind, htransfer,
      Future.Get, hctx, PanicValue.recovered]

theorem Run_of_SetState_panic (sm : stateMachineImpl P W) (ctx : Context) (o : Stateful P W)
    (newState : State) (params : P) (e e1 : Exec P W) (w2 : W) (t : Transition P W)
    (rval : PanicValue) (hctx : ctx.Done = false)
    (hfind : sm.findTransition (o.State e.world) newState = some t)
    (htransfer : t.Transfer ctx o params e = (Outcome.ret none, e1))
    (hset : o.SetState ctx newState params e1.world = (Outcome.panic rval, w2)) :
    sm.Run ctx o newState params e =
      (some rval.recovered, ⟨w2, e1.calls ++ [Call.SetState o newState params]⟩) := by
  cases rval <;>
    simp [stateMachineImpl.Run, NewFuture, stateMachineImpl.Run.body, hfind, htransfer,
      Exec.invoke, hset, Future.Get, hctx, PanicValue.recovered]

theorem recovered_message (rval : PanicValue) : rval.recovered.Error = rval.message := by
  cases rval <;> rfl

/-- C11: when the selected transition's action, or the object's `SetState`,
panics, `Run` returns an error (it is a total function: it does not panic)
whose message is that of the panic value: the `Error()` of a value that is an
error, its printed form otherwise. When the action panics, the only call
made is that action, so `SetState` is never called; the world is the one the
action left, and the object reports the old state unless the action itself
changed it. -/
theorem C11_Run_recovers_panic (sm : stateMachineImpl P W) (ctx : Context)
    (o : Stateful P W) (newState : State) (params : P) (e : Exec P W) (t : Transition P W)
    (hctx : ctx.Done = false)
    (hfind : sm.findTransition (o.State e.world) newState = some t) :
    (∀ (rval : PanicValue) (e1 : Exec P W),
      t.Transfer ctx o params e = (Outcome.panic rval, e1) →
      (∃ err, (sm.Run ctx o newState params e).1 = some err ∧ err.Error = rval.message) ∧
      (sm.Run ctx o newState params e).2 = e1 ∧
      (e1.calls = e.calls ++ [Call.fn t.id o params] ∨
        e1.calls = e.calls ++ [Call.batchFn t.id [o] params]) ∧
      (o.State e1.world = o.State e.world →
        o.State (sm.Run ctx o newState params e).2.world = o.State e.world)) ∧
    (∀ (rval : PanicValue) (e1 : Exec P W) (w2 : W),
      t.Transfer ctx o params e = (Outcome.ret none, e1) →
      o.SetState ctx newState params e1.world = (Outcome.panic rval, w2) →
      (∃ err, (sm.Run ctx o newState params e).1 = some err ∧ err.Error = rval.message) ∧
      (sm.Run ctx o newState params e).2 = ⟨w2, e1.calls ++ [Call.SetState o newState params]⟩) := by
  constructor
  · intro rval e1 htransfer
    rw [Run_of_transfer_panic sm ctx o newState params e e1 t rval hctx hfind htransfer]
    refine ⟨⟨_, rfl, recovered_message rval⟩, rfl, ?_, fun h => h⟩
    rcases Transfer_inv t ctx o params e e1 _ htransfer with
      ⟨_, _, _, hc⟩ | ⟨_, _, _, _, hc⟩ | ⟨_, _, hout, _⟩
    · exact Or.inl hc
    · exact Or.inr hc
    · exact absurd hout (by simp)
  · intro rval e1 w2 htransfer hset
    rw [Run_of_SetState_panic sm ctx o newState params e e1 w2 t rval hctx hfind htransfer hset]
    exact ⟨⟨_, rfl, recovered_message rval⟩, rfl⟩

/-- C11 on a machine whose action does `panic("boom")`: `Run` returns the
error `WithStack(errors.New("boom"))`, whose message is `boom`, and the object
is still in `State1`. -/
theorem C11_Run_recovers_panic_witness :
    (singleMachine panicAction).Run Context.Background (TestStatefulObject.ptr 0) State2 ()
        (Exec.start (TestWorld.init State1 none)) =
      (some (Error.WithStack (Error.New "boom")),
        ⟨TestWorld.init State1 none, [Call.fn "1" (TestStatefulObject.ptr 0) ()]⟩) ∧
    (∃ err, ((singleMachine panicAction).Run Context.Background (TestStatefulObject.ptr 0)
        State2 () (Exec.start (TestWorld.init State1 none))).1 = some err ∧
      err.Error = "boom") ∧
    (TestStatefulObject.ptr 0).State
      ((singleMachine panicAction).Run Context.Background (TestStatefulObject.ptr 0) State2 ()
        (Exec.start (TestWorld.init State1 none))).2.world = State1 :=
  have h := (C11_Run_recovers_panic (singleMachine panicAction) Context.Background
    (TestStatefulObject.ptr 0) State2 () (Exec.start (TestWorld.init State1 none))
    (NewTransition "1" [State1] State2 (some panicAction)) rfl rfl).1
    (PanicValue.other "boom")
    ⟨TestWorld.init State1 none, [Call.fn "1" (TestStatefulObject.ptr 0) ()]⟩ rfl
  ⟨rfl, h.1, h.2.2.2 rfl⟩

/-! ## C12 -/

/-- C12: `Transfer` calls the single-object action once on the object and
returns its result when that action is defined (the batch action is not
called, defined or not); otherwise, when a batch action is defined, it calls
it once with the one-element list holding the object and returns its result;
otherwise it returns the error "not found transfer function" and leaves the
execution state as it was. -/
theorem C12_Transfer_cases (tr : defaultTransition P W) (ctx : Context) (o : Stateful P W)
    (params : P) (e : Exec P W) :
    (∀ fn, tr.fn = some fn →
      tr.Transfer ctx o params e =
        ((fn ctx o params e.world).1,
          ⟨(fn ctx o params e.world).2, e.calls ++ [Call.fn tr.id o params]⟩)) ∧
    (∀ batchFn, tr.fn = none → tr.batchFn = some batchFn →
      tr.Transfer ctx o params e =
        ((batchFn ctx [o] params e.world).1,
          ⟨(batchFn ctx [o] params e.world).2, e.calls ++ [Call.batchFn tr.id [o] params]⟩)) ∧
    (tr.fn = none → tr.batchFn = none →
      tr.Transfer ctx o params e = (Outcome.ret (some funcNotFound), e)) ∧
    funcNotFound.Error = "not found transfer function" := by
  refine ⟨fun fn hfn => Transfer_of_fn tr ctx o params e fn hfn, ?_, ?_, rfl⟩
  · intro batchFn hfn hb
    simp [defaultTransition.Transfer, hfn, hb, Exec.invoke]
  · intro hfn hb
    simp [defaultTransition.Transfer, hfn, hb]

/-- C12 on the transition `a1` of `TestBatchTransfer`, which has a batch action
only: `Transfer` of one object calls the batch action on the one-element
list. -/
theorem C12_Transfer_cases_witness :
    (NewTransitionBatch "a1" [State1] State2 none batchNil).Transfer Context.Background
        (TestStatefulObject.ptr 0) () (Exec.start (TestWorld.init State1 none)) =
      (Outcome.ret none,
        ⟨TestWorld.init State1 none, [Call.batchFn "a1" [TestStatefulObject.ptr 0] ()]⟩) :=
  (C12_Transfer_cases (NewTransitionBatch "a1" [State1] State2 none batchNil)
    Context.Background (TestStatefulObject.ptr 0) ()
    (Exec.start (TestWorld.init State1 none))).2.1 batchNil rfl rfl

/-! ## C13 -/

theorem Contains_iff (ss : States) (s : State) : States.Contains ss s = true ↔ s ∈ ss := by
  simp only [States.Contains, List.any_eq_true, decide_eq_true_eq]
  constructor
  · rintro ⟨x, hx, rfl⟩
    exact hx
  · intro h
    exact ⟨s, h, rfl⟩

theorem HasWildCard_iff (ss : States) : States.HasWildCard ss = true ↔ AllStates ∈ ss := by
  simp only [States.HasWildCard, State.IsWildCard, List.any_eq_true, decide_eq_true_eq]
  constructor
  · rintro ⟨x, hx, rfl⟩
    exact hx
  · intro h
    exact ⟨AllStates, h, rfl⟩

theorem IsAllowedToRun_iff (tr : defaultTransition P W) (s : State) :
    tr.IsAllowedToRun s = true ↔ s ∈ tr.sources ∨ AllStates ∈ tr.sources := by
  simp only [defaultTransition.IsAllowedToRun, Bool.or_eq_true, Contains_iff, HasWildCard_iff]

/-- C13: `IsAllowedToRun(s)` is true exactly when `s` is one of the source
states or the wildcard state is one of them; with the sources `{a, b}`, neither
of them the wildcard, it is true for `a` and for `b` and false for every other
state `c`. -/
theorem C13_IsAllowedToRun_iff (tr : defaultTransition P W) (s : State) :
    (tr.IsAllowedToRun s = true ↔ s ∈ tr.sources ∨ AllStates ∈ tr.sources) ∧
    (∀ a b c : State, tr.sources = [a, b] → a ≠ AllStates → b ≠ AllStates →
      c ≠ a → c ≠ b →
      tr.IsAllowedToRun a = true ∧ tr.IsAllowedToRun b = true ∧
        tr.IsAllowedToRun c = false) := by
  refine ⟨IsAllowedToRun_iff tr s, ?_⟩
  intro a b c hsrc ha hb hca hcb
  refine ⟨(IsAllowedToRun_iff tr a).mpr (Or.inl (by simp [hsrc])),
    (IsAllowedToRun_iff tr b).mpr (Or.inl (by simp [hsrc])), ?_⟩
  rw [Bool.eq_false_iff]
  intro h
  rcases (IsAllowedToRun_iff tr c).mp h with h | h
  · simp only [hsrc, List.mem_cons, List.mem_singleton, List.not_mem_nil, or_false] at h
    rcases h with h | h
    · exact hca h
    · exact hcb h
  · simp only [hsrc, List.mem_cons, List.mem_singleton, List.not_mem_nil, or_false] at h
    rcases h with h | h
    · exact ha h.symm
    · exact hb h.symm

/-- C13 on the transition of `TestTransition_IsAllowedToRun`. -/
theorem C13_IsAllowedToRun_iff_witness :
    (NewTransition "" [State.DefaultState "transitionTest_a", State.DefaultState "transitionTest_b"]
        (State.DefaultState "transitionTest_d")
        (none : Option (Context → Stateful Unit TestWorld → Unit → TestWorld → Outcome × TestWorld))
      ).IsAllowedToRun (State.DefaultState "transitionTest_a") = true ∧
    (NewTransition "" [State.DefaultState "transitionTest_a", State.DefaultState "transitionTest_b"]
        (State.DefaultState "transitionTest_d")
        (none : Option (Context → Stateful Unit TestWorld → Unit → TestWorld → Outcome × TestWorld))
      ).IsAllowedToRun (State.DefaultState "transitionTest_b") = true ∧
    (NewTransition "" [State.DefaultState "transitionTest_a", State.DefaultState "transitionTest_b"]
        (State.DefaultState "transitionTest_d")
        (none : Option (Context → Stateful Unit TestWorld → Unit → TestWorld → Outcome × TestWorld))
      ).IsAllowedToRun (State.DefaultState "transitionTest_c") = false :=
  (C13_IsAllowedToRun_iff
    (NewTransition "" [State.DefaultState "transitionTest_a", State.DefaultState "transitionTest_b"]
      (State.DefaultState "transitionTest_d")
      (none : Option (Context → Stateful Unit TestWorld → Unit → TestWorld → Outcome × TestWorld)))
    State1).2 (State.DefaultState "transitionTest_a") (State.DefaultState "transitionTest_b")
    (State.DefaultState "transitionTest_c") rfl (by decide) (by decide) (by decide) (by decide)

/-! ## C14 -/

/-- C14: `IsAllowedToTransfer(s)` is true exactly when `s` equals the
destination; two transitions with the same destination give the same answer
whatever their source sets; a transition whose destination is the wildcard
value accepts the wildcard value and nothing else. -/
theorem C14_IsAllowedToTransfer_iff (tr : defaultTransition P W) (s : State) :
    (tr.IsAllowedToTransfer s = true ↔ s = tr.destination) ∧
    (∀ tr2 : defaultTransition P W, tr2.destination = tr.destination →
      tr2.IsAllowedToTransfer s = tr.IsAllowedToTransfer s) ∧
    (tr.destination = AllStates → (tr.IsAllowedToTransfer s = true ↔ s = AllStates)) := by
  have hiff : tr.IsAllowedToTransfer s = true ↔ s = tr.destination := by
    simp only [defaultTransition.IsAllowedToTransfer, decide_eq_true_eq]
    constructor
    · intro h
      exact (State.String_injective _ _ h).symm
    · intro h
      rw [h]
  refine ⟨hiff, ?_, ?_⟩
  · intro tr2 h2
    simp only [defaultTransition.IsAllowedToTransfer, h2]
  · intro hd
    rw [hiff, hd]

/-- C14 on the transition of `TestTransition_IsAllowedToTransfer` and on a
transition whose destination is `AllStates`, which does not accept `State1`. -/
theorem C14_IsAllowedToTransfer_iff_witness :
    (NewTransition "" [State.DefaultState "transitionTest_a", State.DefaultState "transitionTest_b"]
        (State.DefaultState "transitionTest_d")
        (none : Option (Context → Stateful Unit TestWorld → Unit → TestWorld → Outcome × TestWorld))
      ).IsAllowedToTransfer (State.DefaultState "transitionTest_d") = true ∧
    ¬ (NewTransition "any" [State1] AllStates
        (none : Option (Context → Stateful Unit TestWorld → Unit → TestWorld → Outcome × TestWorld))
      ).IsAllowedToTransfer State1 = true :=
  ⟨(C14_IsAllowedToTransfer_iff
      (NewTransition "" [State.DefaultState "transitionTest_a", State.DefaultState "transitionTest_b"]
        (State.DefaultState "transitionTest_d")
        (none : Option (Context → Stateful Unit TestWorld → Unit → TestWorld → Outcome × TestWorld)))
      (State.DefaultState "transitionTest_d")).1.mpr rfl,
    fun h => absurd
      (((C14_IsAllowedToTransfer_iff
        (NewTransition "any" [State1] AllStates
          (none : Option (Context → Stateful Unit TestWorld → Unit → TestWorld → Outcome × TestWorld)))
        State1).2.2 rfl).mp h) (by decide)⟩

/-! ## Lemmas on `getAllStates` -/

theorem mem_firstOccurrences (l : List State) (y : State) :
    y ∈ firstOccurrences l ↔ y ∈ l := by
  induction l with
  | nil => simp [firstOccurrences]
  | cons x xs ih =>
    simp only [firstOccurrences, List.mem_cons, List.mem_filter, ih, decide_eq_true_eq]
    constructor
    · rintro (h | ⟨h, _⟩)
      · exact Or.inl h
      · exact Or.inr h
    · intro h
      by_cases hyx : y = x
      · exact Or.inl hyx
      · rcases h with h | h
        · exact Or.inl h
        · exact Or.inr ⟨h, hyx⟩

theorem nodup_firstOccurrences (l : List State) : (firstOccurrences l).Nodup := by
  induction l with
  | nil => simp [firstOccurrences]
  | cons x xs ih =>
    simp only [firstOccurrences, List.nodup_cons, List.mem_filter, decide_eq_true_eq]
    exact ⟨fun h => h.2 rfl, ih.filter _⟩

theorem firstOccurrences_append_singleton (l : List State) (x : State) :
    firstOccurrences (l ++ [x]) =
      if x ∈ l then firstOccurrences l else firstOccurrences l ++ [x] := by
  induction l with
  | nil => simp [firstOccurrences]
  | cons a l ih =>
    rw [List.cons_append]
    simp only [firstOccurrences, ih]
    by_cases hxa : x = a
    · subst hxa
      by_cases hxl : x ∈ l
      · simp [hxl]
      · simp [hxl]
    · by_cases hxl : x ∈ l
      · simp [hxl]
      · simp [hxl, hxa]

theorem getAllStates_inner_spec (xs l : List State) (keys : List State) (states : States)
    (hkeys : ∀ s, s ∈ keys ↔ s ∈ l)
    (hstates : states = (firstOccurrences l).filter (fun s => !s.IsWildCard)) :
    (∀ s, s ∈ (Transitions.getAllStates.inner xs (keys, states)).1 ↔ s ∈ l ++ xs) ∧
    (Transitions.getAllStates.inner xs (keys, states)).2 =
      (firstOccurrences (l ++ xs)).filter (fun s => !s.IsWildCard) := by
  induction xs generalizing l keys states with
  | nil => simpa [Transitions.getAllStates.inner] using ⟨hkeys, hstates⟩
  | cons x xs ih =>
    have happ : l ++ x :: xs = (l ++ [x]) ++ xs := by simp
    rw [happ]
    by_cases hx : x ∈ keys
    · have hxl : x ∈ l := (hkeys x).mp hx
      simp only [Transitions.getAllStates.inner, hx, decide_True, if_true]
      apply ih (l ++ [x]) keys states
      · intro s
        rw [hkeys s]
        simp only [List.mem_append, List.mem_singleton]
        constructor
        · exact Or.inl
        · rintro (h | h)
          · exact h
          · exact h ▸ hxl
      · rw [firstOccurrences_append_singleton, if_pos hxl]
        exact hstates
    · have hxl : x ∉ l := fun h => hx ((hkeys x).mpr h)
      have hkeys2 : ∀ s, s ∈ x :: keys ↔ s ∈ l ++ [x] := by
        intro s
        simp only [List.mem_cons, List.mem_append, List.mem_singleton, List.not_mem_nil,
          or_false, hkeys s]
        exact Or.comm
      by_cases hw : x.IsWildCard = true
      · simp only [Transitions.getAllStates.inner, hx, decide_False, hw, Bool.not_true,
          if_false, Bool.false_eq_true]
        apply ih (l ++ [x]) (x :: keys) states hkeys2
        rw [firstOccurrences_append_singleton, if_neg hxl, List.filter_append, hstates]
        simp [hw]
      · simp only [Bool.not_eq_true] at hw
        simp only [Transitions.getAllStates.inner, hx, decide_False, hw, Bool.not_false,
          if_true, if_false, Bool.false_eq_true]
        apply ih (l ++ [x]) (x :: keys) (states ++ [x]) hkeys2
        rw [firstOccurrences_append_singleton, if_neg hxl, List.filter_append, hstates]
        simp [hw]

theorem mem_mentionedStates (ts : Transitions P W) (s : State) :
    s ∈ mentionedStates ts ↔ ∃ t ∈ ts, s ∈ t.sources ∨ s = t.destination := by
  induction ts with
  | nil => simp [mentionedStates]
  | cons a ts ih =>
    simp only [mentionedStates, List.mem_append, List.mem_singleton, ih, List.mem_cons,
      exists_eq_or_imp, List.not_mem_nil, or_false]

theorem mem_firstSeenStates (ts : Transitions P W) (s : State) :
    s ∈ firstSeenStates ts ↔
      (∃ t ∈ ts, s ∈ t.sources ∨ s = t.destination) ∧ s ≠ AllStates := by
  simp only [firstSeenStates, List.mem_filter, mem_firstOccurrences, mem_mentionedStates,
    State.IsWildCard, Bool.not_eq_true', decide_eq_false_iff_not, ne_eq]

/-! ## C15 -/

theorem Memory.append_of_full (mem : Memory) (s : Slice) (x : State) (h : ¬ s.len < s.cap) :
    mem.append s x = (mem.read s ++ [x], mem) := by
  simp [Memory.append, h]

/-- When no source slice has spare capacity, `getAllStates` leaves the memory
as it is and computes the first occurrences of the mentioned states without
the wildcard. -/
theorem getAllStates_loop_spec (mem : Memory) (ts : Transitions P W) (slices : List Slice)
    (l : List State) (keys : List State) (states : States)
    (hholds : mem.Holds ts slices) (hfull : ∀ s ∈ slices, ¬ s.len < s.cap)
    (hkeys : ∀ s, s ∈ keys ↔ s ∈ l)
    (hstates : states = (firstOccurrences l).filter (fun s => !s.IsWildCard)) :
    (Transitions.getAllStates.loop ts slices (mem, keys, states)).1 = mem ∧
    (Transitions.getAllStates.loop ts slices (mem, keys, states)).2.2 =
      (firstOccurrences (l ++ mentionedStates ts)).filter (fun s => !s.IsWildCard) := by
  induction ts generalizing slices l keys states with
  | nil =>
    cases slices with
    | nil => simpa [Transitions.getAllStates.loop, mentionedStates] using hstates
    | cons s slices => exact absurd hholds (by simp [Memory.Holds])
  | cons t ts ih =>
    cases slices with
    | nil => exact absurd hholds (by simp [Memory.Holds])
    | cons s slices =>
      simp only [Memory.Holds] at hholds
      have hs : ¬ s.len < s.cap := hfull s (List.mem_cons_self s slices)
      have h := getAllStates_inner_spec (t.sources ++ [t.destination]) l keys states hkeys
        hstates
      simp only [Transitions.getAllStates.loop, Memory.append_of_full mem s _ hs, hholds.1,
        defaultTransition.GetDestinationState, mentionedStates]
      rw [← List.append_assoc l]
      exact ih slices (l ++ (t.sources ++ [t.destination])) _ _ hholds.2
        (fun x hx => hfull x (List.mem_cons_of_mem s hx)) h.1 h.2

/-- For a machine none of whose source slices has spare capacity (as for the
slices written `States{...}`), `GetAllStates()` returns the first
occurrences of the source and destination states, without the wildcard, and
leaves the memory as it is. -/
theorem GetAllStates_of_full (sm : stateMachineImpl P W) (mem : Memory) (slices : List Slice)
    (hholds : mem.Holds sm.transitions slices) (hfull : ∀ s ∈ slices, ¬ s.len < s.cap) :
    sm.GetAllStates mem slices = (firstSeenStates sm.transitions, mem) := by
  unfold stateMachineImpl.GetAllStates
  split
  · next h =>
    rw [List.length_eq_zero.mp h]
    rfl
  · have h := getAllStates_loop_spec mem sm.transitions slices [] [] [] hholds hfull
      (fun s => Iff.rfl) (by simp [firstOccurrences])
    simp only [List.nil_append] at h
    simp only [Transitions.getAllStates, firstSeenStates, h.1, h.2]

/-- C15, the code at the failing input: with `backing := States{State1, State4}`,
the transitions `t1` from `backing[:1]` to `State2` and `t2` from `backing[:2]`
to `State3` mention the states `State1, State2, State4, State3` in first-seen
order. In `getAllStates`, `append(t1.GetSourceStates(), State2)` finds spare
capacity and writes `State2` over `backing[1]`: `GetAllStates()` returns
`State1, State2, State3`, without the source `State4` of `t2`, and leaves
`State1, State2` as the source states of `t2`. -/
theorem C15_GetAllStates_shared_backing :
    sharedMemory.Holds sharedMachine.transitions sharedSlices ∧
    firstSeenStates sharedMachine.transitions = [State1, State2, State4, State3] ∧
    (sharedMachine.GetAllStates sharedMemory sharedSlices).1 = [State1, State2, State3] ∧
    (sharedMachine.GetAllStates sharedMemory sharedSlices).2 = ⟨[[State1, State2]]⟩ ∧
    (sharedMachine.GetAllStates sharedMemory sharedSlices).2.read ⟨0, 0, 2, 2⟩ =
      [State1, State2] :=
  ⟨⟨rfl, rfl, trivial⟩, by decide, by decide, by decide, by decide⟩

/-! ## C16 -/

theorem GetAvailableTransitions_loop_eq (o : Stateful P W) (w : W)
    (ts acc : Transitions P W) :
    stateMachineImpl.GetAvailableTransitions.loop o w ts acc =
      acc ++ ts.filter (fun t => t.IsAllowedToRun (o.State w)) := by
  induction ts generalizing acc with
  | nil => simp [stateMachineImpl.GetAvailableTransitions.loop]
  | cons t ts ih =>
    by_cases h : t.IsAllowedToRun (o.State w) = true
    · simp [stateMachineImpl.GetAvailableTransitions.loop, h, ih]
    · simp [stateMachineImpl.GetAvailableTransitions.loop, h, ih]

/-- C16: `GetAvailableTransitions(object)` is the list of the registered
transitions for which `IsAllowedToRun(object.State())` holds, in registration
order: a sublist of the registered transitions that holds exactly those whose
source set contains the current state or the wildcard. The method returns
that list only: it has no way to change the machine or the world of the
object. -/
theorem C16_GetAvailableTransitions_filter (sm : stateMachineImpl P W) (o : Stateful P W)
    (w : W) :
    sm.GetAvailableTransitions o w =
        sm.transitions.filter (fun t => t.IsAllowedToRun (o.State w)) ∧
    (sm.GetAvailableTransitions o w).Sublist sm.transitions ∧
    (∀ t : Transition P W, t ∈ sm.GetAvailableTransitions o w ↔
      t ∈ sm.transitions ∧ (o.State w ∈ t.sources ∨ AllStates ∈ t.sources)) := by
  have heq : sm.GetAvailableTransitions o w =
      sm.transitions.filter (fun t => t.IsAllowedToRun (o.State w)) := by
    simp [stateMachineImpl.GetAvailableTransitions, GetAvailableTransitions_loop_eq]
  refine ⟨heq, ?_, ?_⟩
  · rw [heq]
    exact List.filter_sublist _
  · intro t
    rw [heq, List.mem_filter, IsAllowedToRun_iff]

/-- C16 on the machine of `TestStateMachine_GetAvailableTransitions`: for an
object in `State1` the available transitions are `1` and the wildcard
transition `6`. -/
theorem C16_GetAvailableTransitions_filter_witness :
    (newStateMachine.GetAvailableTransitions (TestStatefulObject.ptr 0)
        (TestWorld.init State1 none)).map (fun t => t.id) = ["1", "6"] :=
  (congrArg (List.map (fun t => t.id))
    (C16_GetAvailableTransitions_filter newStateMachine (TestStatefulObject.ptr 0)
      (TestWorld.init State1 none)).1).trans (by decide)

/-! ## C17 -/

/-- C17: on an empty list of objects `BatchRun` returns `nil` and leaves the
execution state as it was, for every machine (also one without transitions),
target and params: no action and no `SetState` is called, and the result
does not depend on the transitions. -/
theorem C17_BatchRun_empty (sm : stateMachineImpl P W) (ctx : Context) (newState : State)
    (params : P) (e : Exec P W) (hctx : ctx.Done = false) :
    sm.BatchRun ctx [] newState params e = (none, e) := by
  simp [stateMachineImpl.BatchRun, NewFuture, stateMachineImpl.BatchRun.body, Future.Get, hctx]

/-- C17 on a machine without transitions. -/
theorem C17_BatchRun_empty_witness :
    (NewStateMachine ([] : Transitions Unit TestWorld)).BatchRun Context.Background [] State2 ()
        (Exec.start (TestWorld.init State1 none)) =
      (none, Exec.start (TestWorld.init State1 none)) :=
  C17_BatchRun_empty (NewStateMachine ([] : Transitions Unit TestWorld)) Context.Background
    State2 () (Exec.start (TestWorld.init State1 none)) rfl

/-! ## C18 -/

/-- C18: after `AddTransition(t)`, `GetTransitions()` is the former list
followed by `t`: the transitions registered before keep their position and
are the same values, `t` is the last one, and nothing is rejected or merged,
so that adding `t` twice registers it twice. -/
theorem C18_AddTransition_appends (sm : stateMachineImpl P W) (t : Transition P W) :
    (sm.AddTransition t).GetTransitions = sm.GetTransitions ++ [t] ∧
    (∀ i : Nat, i < sm.GetTransitions.length →
      (sm.AddTransition t).GetTransitions[i]? = sm.GetTransitions[i]?) ∧
    (sm.AddTransition t).GetTransitions[sm.GetTransitions.length]? = some t ∧
    (sm.AddTransition t).GetTransitions.length = sm.GetTransitions.length + 1 ∧
    ((sm.AddTransition t).AddTransition t).GetTransitions = sm.GetTransitions ++ [t, t] := by
  refine ⟨rfl, ?_, ?_, ?_, ?_⟩
  · intro i hi
    simp only [stateMachineImpl.AddTransition, stateMachineImpl.GetTransitions] at hi ⊢
    exact List.getElem?_append_left hi
  · simp [stateMachineImpl.AddTransition, stateMachineImpl.GetTransitions]
  · simp [stateMachineImpl.AddTransition, stateMachineImpl.GetTransitions]
  · simp [stateMachineImpl.AddTransition, stateMachineImpl.GetTransitions]

/-! ## C19 -/

/-- C19: for a machine without transitions `Graph` returns the error "can't
find any transition", whatever the output path and the renderer, makes no
call of `system` and leaves the memory as it is; for a machine with at least
one transition it returns what `Export` of the transition list returns. -/
theorem C19_Graph_requires_transitions (system : String → String → Option Error)
    (sm : stateMachineImpl P W) (mem : Memory) (slices : List Slice) (outfile : String) :
    (sm.transitions = [] →
      sm.Graph system mem slices outfile =
        (some (Error.New "can\x27t find any transition"), [], mem) ∧
      (sm.Graph system mem slices outfile).1 ≠ none) ∧
    (sm.transitions ≠ [] →
      sm.Graph system mem slices outfile =
        Transitions.Export system mem sm.transitions slices outfile) := by
  constructor
  · intro h
    simp [stateMachineImpl.Graph, h]
  · intro h
    have hlen : sm.transitions.length ≠ 0 := fun h0 => h (List.length_eq_zero.mp h0)
    simp [stateMachineImpl.Graph, hlen]

/-- C19 on a machine without transitions and a renderer that would succeed. -/
theorem C19_Graph_requires_transitions_witness :
    (NewStateMachine ([] : Transitions Unit TestWorld)).Graph (fun _ _ => none) ⟨[]⟩ []
        "out.png" =
      (some (Error.New "can\x27t find any transition"), [], ⟨[]⟩) :=
  ((C19_Graph_requires_transitions (fun _ _ => none)
    (NewStateMachine ([] : Transitions Unit TestWorld)) ⟨[]⟩ [] "out.png").1 rfl).1

/-! ## C21 -/

theorem Transfer_eq_BatchTransfer_singleton (tr : defaultTransition P W) (ctx : Context)
    (o : Stateful P W) (params : P) (e : Exec P W)
    (batchFn : Context → List (Stateful P W) → P → W → Outcome × W)
    (hfn : tr.fn = none) (hbatch : tr.batchFn = some batchFn) :
    tr.Transfer ctx o params e = tr.BatchTransfer ctx [o] params e := by
  simp only [defaultTransition.Transfer, defaultTransition.BatchTransfer, hfn, hbatch]

theorem commit_singleton (ctx : Context) (newState : State) (params : P) (o : Stateful P W)
    (e : Exec P W) :
    stateMachineImpl.BatchRun.commit ctx newState params [o] e =
      ((o.SetState ctx newState params e.world).1,
        ⟨(o.SetState ctx newState params e.world).2,
          e.calls ++ [Call.SetState o newState params]⟩) := by
  simp only [stateMachineImpl.BatchRun.commit, Exec.invoke]
  split
  · next e1 heq =>
    simp only [Prod.mk.injEq] at heq
    rw [heq.1, heq.2]
  · next _ _ _ heq => exact heq.symm

/-- For a selected transition with a batch action only, the unit of work of
`Run` on `o` and that of `BatchRun` on the list `[o]` are the same. -/
theorem Run_body_eq_BatchRun_body (sm : stateMachineImpl P W) (ctx : Context)
    (o : Stateful P W) (newState : State) (params : P) (e : Exec P W) (t : Transition P W)
    (batchFn : Context → List (Stateful P W) → P → W → Outcome × W)
    (hfind : sm.findTransition (o.State e.world) newState = some t)
    (hfn : t.fn = none) (hbatch : t.batchFn = some batchFn) :
    stateMachineImpl.Run.body sm ctx o newState params e =
      stateMachineImpl.BatchRun.body sm ctx [o] newState params e := by
  rw [BatchRun_body_of_found sm ctx [o] newState params e (o.State e.world) t (by simp)
    (fun x hx => by rw [List.mem_singleton.mp hx]) hfind]
  simp only [stateMachineImpl.Run.body, hfind,
    Transfer_eq_BatchTransfer_singleton t ctx o params e batchFn hfn hbatch]
  cases hres : t.BatchTransfer ctx [o] params e with
  | mk out e1 =>
    cases out with
    | ret err =>
      cases err with
      | none =>
        simp only [commit_singleton, Exec.invoke]
        split
        · next e2 heq =>
          simp only [Prod.mk.injEq] at heq
          rw [heq.1, heq.2]
        · next _ _ _ heq => exact heq.symm
      | some err => rfl
    | panic rval => rfl

theorem Run_eq_BatchRun_singleton (sm : stateMachineImpl P W) (ctx : Context)
    (o : Stateful P W) (newState : State) (params : P) (e : Exec P W) (t : Transition P W)
    (batchFn : Context → List (Stateful P W) → P → W → Outcome × W)
    (hfind : sm.findTransition (o.State e.world) newState = some t)
    (hfn : t.fn = none) (hbatch : t.batchFn = some batchFn) :
    sm.Run ctx o newState params e = sm.BatchRun ctx [o] newState params e := by
  simp only [stateMachineImpl.Run, stateMachineImpl.BatchRun, NewFuture,
    Run_body_eq_BatchRun_body sm ctx o newState params e t batchFn hfind hfn hbatch]

theorem Transfer_of_batchFn_only (tr : defaultTransition P W) (ctx : Context)
    (o : Stateful P W) (params : P) (e : Exec P W)
    (batchFn : Context → List (Stateful P W) → P → W → Outcome × W)
    (hfn : tr.fn = none) (hbatch : tr.batchFn = some batchFn) :
    tr.Transfer ctx o params e =
      ((batchFn ctx [o] params e.world).1,
        ⟨(batchFn ctx [o] params e.world).2, e.calls ++ [Call.batchFn tr.id [o] params]⟩) := by
  simp [defaultTransition.Transfer, hfn, hbatch, Exec.invoke]

/-- The calls `Run` makes when the selected transition has a batch action
only: the batch action on `[o]`, followed by at most the call of `SetState`. -/
theorem Run_calls_batchFn_only (sm : stateMachineImpl P W) (ctx : Context)
    (o : Stateful P W) (newState : State) (params : P) (e : Exec P W) (t : Transition P W)
    (batchFn : Context → List (Stateful P W) → P → W → Outcome × W)
    (hfind : sm.findTransition (o.State e.world) newState = some t)
    (hfn : t.fn = none) (hbatch : t.batchFn = some batchFn) :
    (sm.Run ctx o newState params e).2.calls = e.calls ++ [Call.batchFn t.id [o] params] ∨
    (sm.Run ctx o newState params e).2.calls =
      e.calls ++ [Call.batchFn t.id [o] params, Call.SetState o newState params] := by
  have htr := Transfer_of_batchFn_only t ctx o params e batchFn hfn hbatch
  rcases h1 : batchFn ctx [o] params e.world with ⟨out, w1⟩
  rw [h1] at htr
  cases out with
  | ret err =>
    cases err with
    | none =>
      right
      rcases h2 : o.SetState ctx newState params w1 with ⟨out2, w2⟩
      cases out2 with
      | ret err2 =>
        cases err2 <;>
          simp [stateMachineImpl.Run, NewFuture, stateMachineImpl.Run.body, hfind, htr,
            Exec.invoke, h2]
      | panic rval =>
        cases rval <;>
          simp [stateMachineImpl.Run, NewFuture, stateMachineImpl.Run.body, hfind, htr,
            Exec.invoke, h2]
    | some err =>
      left
      simp [stateMachineImpl.Run, NewFuture, stateMachineImpl.Run.body, hfind, htr]
  | panic rval =>
    left
    cases rval <;>
      simp [stateMachineImpl.Run, NewFuture, stateMachineImpl.Run.body, hfind, htr]

/-- C21: when the transition selected for `(o.State(), target)` defines a
batch action and no single-object action, `Run(o, target)` and
`BatchRun([o], target)` return the same error and leave the same execution
state, so `o` is in the same state after either. Both call the batch action
exactly once, on the one-element list `[o]`, followed by at most one call of
`SetState`. When the action and `SetState` return `nil` both return `nil` and
`o`, if its `SetState` stores the state, reports the target; when the action
returns an error both return that error without calling `SetState`, and `o`
reports the original state unless the action itself changed it. -/
theorem C21_Run_equiv_BatchRun_singleton (sm : stateMachineImpl P W) (ctx : Context)
    (o : Stateful P W) (newState : State) (params : P) (e : Exec P W) (t : Transition P W)
    (batchFn : Context → List (Stateful P W) → P → W → Outcome × W)
    (hfind : sm.findTransition (o.State e.world) newState = some t)
    (hfn : t.fn = none) (hbatch : t.batchFn = some batchFn) :
    sm.Run ctx o newState params e = sm.BatchRun ctx [o] newState params e ∧
    ((sm.BatchRun ctx [o] newState params e).2.calls =
        e.calls ++ [Call.batchFn t.id [o] params] ∨
      (sm.BatchRun ctx [o] newState params e).2.calls =
        e.calls ++ [Call.batchFn t.id [o] params, Call.SetState o newState params]) ∧
    (ctx.Done = false → ∀ w1 w2 : W,
      batchFn ctx [o] params e.world = (Outcome.ret none, w1) →
      o.SetState ctx newState params w1 = (Outcome.ret none, w2) →
      sm.BatchRun ctx [o] newState params e =
          (none, ⟨w2, e.calls ++
            [Call.batchFn t.id [o] params, Call.SetState o newState params]⟩) ∧
      (o.SetStateStores →
        o.State (sm.Run ctx o newState params e).2.world = newState ∧
        o.State (sm.BatchRun ctx [o] newState params e).2.world = newState)) ∧
    (ctx.Done = false → ∀ (err : Error) (w1 : W),
      batchFn ctx [o] params e.world = (Outcome.ret (some err), w1) →
      sm.BatchRun ctx [o] newState params e =
          (some err, ⟨w1, e.calls ++ [Call.batchFn t.id [o] params]⟩) ∧
      (o.State w1 = o.State e.world →
        o.State (sm.Run ctx o newState params e).2.world = o.State e.world ∧
        o.State (sm.BatchRun ctx [o] newState params e).2.world = o.State e.world)) := by
  have heq := Run_eq_BatchRun_singleton sm ctx o newState params e t batchFn hfind hfn hbatch
  have htr := Transfer_of_batchFn_only t ctx o params e batchFn hfn hbatch
  refine ⟨heq, ?_, ?_, ?_⟩
  · rw [← heq]
    exact Run_calls_batchFn_only sm ctx o newState params e t batchFn hfind hfn hbatch
  · intro hctx w1 w2 hact hset
    rw [hact] at htr
    have hrun := Run_of_success sm ctx o newState params e _ w2 t hctx hfind htr hset
    rw [← heq, hrun]
    refine ⟨by simp, fun hlaw => ?_⟩
    have := hlaw ctx newState params w1 w2 hset
    exact ⟨this, this⟩
  · intro hctx err w1 hact
    rw [hact] at htr
    have hrun := Run_of_transfer_error sm ctx o newState params e _ t err hctx hfind htr
    rw [← heq, hrun]
    exact ⟨rfl, fun h => ⟨h, h⟩⟩

/-- C21 on the machine of `TestBatchTransfer` and one object in `State1`: the
transition `a1` to `State2` has a batch action only; `Run` and `BatchRun` on
the one-element list give the same result, `nil`, after the calls of the
batch action and of `SetState`, and the object is in `State2`. -/
theorem C21_Run_equiv_BatchRun_singleton_witness :
    batchMachine.Run Context.Background (TestStatefulObject.ptr 0) State2 ()
        (Exec.start (TestWorld.init State1 none)) =
      batchMachine.BatchRun Context.Background [TestStatefulObject.ptr 0] State2 ()
        (Exec.start (TestWorld.init State1 none)) ∧
    (batchMachine.BatchRun Context.Background [TestStatefulObject.ptr 0] State2 ()
        (Exec.start (TestWorld.init State1 none))).1 = none ∧
    (batchMachine.BatchRun Context.Background [TestStatefulObject.ptr 0] State2 ()
        (Exec.start (TestWorld.init State1 none))).2.calls =
      [Call.batchFn "a1" [TestStatefulObject.ptr 0] (),
        Call.SetState (TestStatefulObject.ptr 0) State2 ()] ∧
    (TestStatefulObject.ptr 0).State
      (batchMachine.Run Context.Background (TestStatefulObject.ptr 0) State2 ()
        (Exec.start (TestWorld.init State1 none))).2.world = State2 :=
  have h := C21_Run_equiv_BatchRun_singleton batchMachine Context.Background
    (TestStatefulObject.ptr 0) State2 () (Exec.start (TestWorld.init State1 none))
    (NewTransitionBatch "a1" [State1] State2 none batchNil) batchNil rfl rfl rfl
  have hs := h.2.2.1 rfl (TestWorld.init State1 none)
    ((TestWorld.init State1 none).store 0 ⟨State2, 0⟩) rfl rfl
  ⟨h.1, congrArg Prod.fst hs.1, congrArg (fun r => r.2.calls) hs.1,
    (hs.2 (ptr_SetStateStores 0)).1⟩

end stateful
